import Mathlib

/-!
# bunch: the command layer (`commands.go`)

A shallow embedding of the command functions of `commands.go`.

* A Go `error` value is a `GoError`: the text of `err.Error()` together with the
  stack lines that `StackTrace()` yields when the dynamic type is `*errors.Err`.
* Every function that `commands.go` calls but does not define (the manifest
  helpers, the fetch helpers, the operating-system calls) is a field of `Ext`;
  each takes the world and gives back its result and the world it leaves.
* Running a command yields a `Result`: how the process ended (`Outcome`), the
  world it left, and the list of calls it performed, in order, each with the
  value it returned (`Call`).
* `log.Fatalf` ends the process: the outcome is `Outcome.fatal` with the
  formatted message and no later call is performed.
-/

namespace Bunch

/-- A Go `error` value: `text` is `err.Error()`; `stack` is `some lines` when the
dynamic type is `*errors.Err` (what `StackTrace()` returns), `none` otherwise. -/
structure GoError where
  text : String
  stack : Option (List String)
  deriving DecidableEq, Repr

/-- The call `errors.Trace(err)` of juju/errors: an `*errors.Err` with the same
`Error()` text and one more stack line (only its presence is used here). -/
def errorsTrace (err : GoError) : GoError :=
  { text := err.text, stack := some ("commands.go:23" :: err.stack.getD []) }

/-- The result of `readBunchfile()`: the manifest, or the error. -/
inductive ReadResult (β : Type) where
  | ok (bunch : β)
  | err (e : GoError)
  deriving DecidableEq, Repr

/-- One call performed by a command, with its arguments and what it returned. -/
inductive Call (β : Type) where
  | MkdirAll (path : String) (perm : Nat) (err : Option GoError)
  | WriteFile (path : String) (data : String) (perm : Nat) (err : Option GoError)
  | Getenv (key : String) (value : String)
  | pathExists (path : String) (found : Bool)
  | readBunchfile (res : ReadResult β)
  | createBunchfile (bunch : β)
  | installPackagesFromBunchfile (bunch : β) (forceUpdate checkUpstream respectLocked : Bool)
      (err : Option GoError)
  | installPackagesFromRepoStrings (packages : List String)
      (global forceUpdate checkUpstream respectLocked : Bool) (err : Option GoError)
  | AddPackage (bunch : β) (pack : String) (err : Option GoError)
  | RemovePackage (bunch : β) (pack : String) (err : Option GoError)
  | Save (bunch : β) (err : Option GoError)
  | removePackages (packages : List String) (bunch : β) (global : Bool) (err : Option GoError)
  | prunePackages (bunch : β) (err : Option GoError)
  | checkOutdatedPackages (bunch : β) (err : Option GoError)
  | lockPackages (bunch : β) (err : Option GoError)
  | generateBunchfile (err : Option GoError)
  | setVendorEnv (err : Option GoError)
  | Run (name : String) (args : List String) (err : Option GoError)
  | Print (text : String)
  deriving DecidableEq, Repr

/-- How the process ends: normal return, `log.Fatalf` (exit status 1 after
printing `msg`), or a Go run-time panic. -/
inductive Outcome where
  | ok
  | fatal (msg : String)
  | panic (msg : String)
  deriving DecidableEq, Repr

/-- What a command leaves behind. -/
structure Result (ω β : Type) where
  outcome : Outcome
  world : ω
  calls : List (Call β)

/-- The `*cli.Context` as far as `commands.go` reads it: `c.Args()`,
`c.Bool("g")` and `c.Bool("save")`. -/
structure Context where
  Args : List String
  g : Bool
  save : Bool
  deriving DecidableEq, Repr

/-- The functions `commands.go` calls and does not define. `β` is the value a
`*BunchFile` points to; a method with a pointer receiver, and a helper that is
handed the pointer, returns the value it leaves there. -/
structure Ext (ω β : Type) where
  MkdirAll : String → Nat → ω → Option GoError × ω
  WriteFile : String → String → Nat → ω → Option GoError × ω
  Getenv : String → ω → String
  pathExists : String → ω → Bool
  readBunchfile : ω → ReadResult β × ω
  createBunchfile : ω → β × ω
  installPackagesFromBunchfile : β → Bool → Bool → Bool → ω → Option GoError × ω
  installPackagesFromRepoStrings : List String → Bool → Bool → Bool → Bool → ω → Option GoError × ω
  AddPackage : β → String → ω → Option GoError × β × ω
  RemovePackage : β → String → ω → Option GoError × β × ω
  Save : β → ω → Option GoError × ω
  removePackages : List String → β → Bool → ω → Option GoError × β × ω
  prunePackages : β → ω → Option GoError × ω
  checkOutdatedPackages : β → ω → Option GoError × ω
  lockPackages : β → ω → Option GoError × ω
  generateBunchfile : ω → Option GoError × ω
  setVendorEnv : ω → Option GoError × ω
  Run : String → List String → ω → Option GoError × ω
  pathJoin : List String → String

/-- The verb `%s` of `fmt` applied to a `[]string`. -/
def fmtStrings (xs : List String) : String :=
  "[" ++ " ".intercalate xs ++ "]"

/-- The slice literal of `setupVendoring`. -/
def vendorDirs : List String := [".vendor/bin", ".vendor/pkg", ".vendor/src"]

/-- The `for _, vendorDir := range vendorDirs` loop of `setupVendoring`: the
first `os.MkdirAll` that fails ends the loop with `errors.Trace(err)`. -/
def setupVendoringLoop {ω β : Type} (MkdirAll : String → Nat → ω → Option GoError × ω) :
    List String → ω → Option GoError × ω × List (Call β)
  | [], w => (none, w, [])
  | vendorDir :: rest, w =>
    match MkdirAll vendorDir 0o755 w with
    | (some err, w1) => (some (errorsTrace err), w1, [Call.MkdirAll vendorDir 0o755 (some err)])
    | (none, w1) =>
      match setupVendoringLoop MkdirAll rest w1 with
      | (r, w2, t) => (r, w2, Call.MkdirAll vendorDir 0o755 none :: t)

/-- `setupVendoring` (commands.go 16-28). -/
def setupVendoring {ω β : Type} (MkdirAll : String → Nat → ω → Option GoError × ω) (w : ω) :
    Option GoError × ω × List (Call β) :=
  setupVendoringLoop MkdirAll vendorDirs w

/-- The loop `for _, pack := range packages { err := bunch.AddPackage(pack) ... }`
of `installCommand`: gives the package and error of the call that failed, if one
did, the manifest value left behind the pointer, the world and the calls. -/
def addPackages {ω β : Type} (x : Ext ω β) :
    List String → β → ω → Option (String × GoError) × β × ω × List (Call β)
  | [], bunch, w => (none, bunch, w, [])
  | pack :: rest, bunch, w =>
    match x.AddPackage bunch pack w with
    | (some err, bunch1, w1) => (some (pack, err), bunch1, w1, [Call.AddPackage bunch pack (some err)])
    | (none, bunch1, w1) =>
      match addPackages x rest bunch1 w1 with
      | (r, bunch2, w2, t) => (r, bunch2, w2, Call.AddPackage bunch pack none :: t)

/-- The loop `for _, pack := range packages { err := bunch.RemovePackage(pack) ... }`
of `uninstallCommand`. -/
def removeFromSaveList {ω β : Type} (x : Ext ω β) :
    List String → β → ω → Option (String × GoError) × β × ω × List (Call β)
  | [], bunch, w => (none, bunch, w, [])
  | pack :: rest, bunch, w =>
    match x.RemovePackage bunch pack w with
    | (some err, bunch1, w1) =>
      (some (pack, err), bunch1, w1, [Call.RemovePackage bunch pack (some err)])
    | (none, bunch1, w1) =>
      match removeFromSaveList x rest bunch1 w1 with
      | (r, bunch2, w2, t) => (r, bunch2, w2, Call.RemovePackage bunch pack none :: t)

/-- The `if global && os.Getenv("GOPATH") == ""` test: `os.Getenv` is called only
when `global` is true. Gives whether the test holds and the calls made. -/
def gopathMissing {ω β : Type} (x : Ext ω β) (global : Bool) (w : ω) : Bool × List (Call β) :=
  if global then
    (x.Getenv "GOPATH" w == "", [Call.Getenv "GOPATH" (x.Getenv "GOPATH" w)])
  else (false, [])

/-- The part of `installCommand` after the manifest is in hand (commands.go
80-98): fetch, then, under `--save`, add every package and save. -/
def installAndSave {ω β : Type} (x : Ext ω β) (packages : List String) (global save : Bool)
    (forceUpdate checkUpstream respectLocked : Bool) (bunch : β) (w : ω) (t : List (Call β)) :
    Result ω β :=
  match x.installPackagesFromRepoStrings packages global forceUpdate checkUpstream respectLocked w with
  | (some err, w1) =>
    ⟨.fatal ("failed installing packages: " ++ err.text), w1,
      t ++ [Call.installPackagesFromRepoStrings packages global forceUpdate checkUpstream
        respectLocked (some err)]⟩
  | (none, w1) =>
    let t1 := t ++ [Call.installPackagesFromRepoStrings packages global forceUpdate checkUpstream
      respectLocked none]
    if save then
      match addPackages x packages bunch w1 with
      | (some (pack, err), _, w2, ta) =>
        ⟨.fatal ("failed adding package " ++ pack ++ " to save list: " ++ err.text), w2, t1 ++ ta⟩
      | (none, bunch1, w2, ta) =>
        match x.Save bunch1 w2 with
        | (some err, w3) =>
          ⟨.fatal ("failed saving Bunchfile: " ++ err.text), w3,
            t1 ++ ta ++ [Call.Save bunch1 (some err)]⟩
        | (none, w3) => ⟨.ok, w3, t1 ++ ta ++ [Call.Save bunch1 none]⟩
    else ⟨.ok, w1, t1⟩

/-- `installCommand` (commands.go 30-100). At line 60 the type assertion
`err.(*errors.Err)` is evaluated before `log.Fatalf`: an error of another dynamic
type (`stack = none`) makes the Go run time panic. -/
def installCommand {ω β : Type} (x : Ext ω β) (c : Context)
    (forceUpdate checkUpstream respectLocked : Bool) (w : ω) : Result ω β :=
  let packages := c.Args
  match setupVendoring x.MkdirAll w with
  | (some err, w1, t1) => ⟨.fatal ("unable to set up vendor dirs: " ++ err.text), w1, t1⟩
  | (none, w1, t1) =>
    if packages.length = 0 then
      match x.readBunchfile w1 with
      | (.err err, w2) =>
        ⟨.fatal ("unable to read Bunchfile: " ++ err.text), w2, t1 ++ [Call.readBunchfile (.err err)]⟩
      | (.ok bunch, w2) =>
        let t2 := t1 ++ [Call.readBunchfile (.ok bunch)]
        match x.installPackagesFromBunchfile bunch forceUpdate checkUpstream respectLocked w2 with
        | (some err, w3) =>
          let t3 := t2 ++ [Call.installPackagesFromBunchfile bunch forceUpdate checkUpstream
            respectLocked (some err)]
          match err.stack with
          | none => ⟨.panic "interface conversion: error is not *errors.Err", w3, t3⟩
          | some st =>
            ⟨.fatal ("failed installing packages: " ++ err.text ++ " " ++ fmtStrings st), w3, t3⟩
        | (none, w3) =>
          ⟨.ok, w3, t2 ++ [Call.installPackagesFromBunchfile bunch forceUpdate checkUpstream
            respectLocked none]⟩
    else
      let global := c.g
      let save := c.save
      match gopathMissing x global w1 with
      | (true, tg) => ⟨.fatal "GOPATH must be set when -g used", w1, t1 ++ tg⟩
      | (false, tg) =>
        let t2 := t1 ++ tg ++ [Call.pathExists "Bunchfile" (x.pathExists "Bunchfile" w1)]
        if x.pathExists "Bunchfile" w1 then
          match x.readBunchfile w1 with
          | (.err err, w2) =>
            ⟨.fatal ("unable to read Bunchfile: " ++ err.text), w2,
              t2 ++ [Call.readBunchfile (.err err)]⟩
          | (.ok bunch, w2) =>
            installAndSave x packages global save forceUpdate checkUpstream respectLocked bunch w2
              (t2 ++ [Call.readBunchfile (.ok bunch)])
        else
          match x.createBunchfile w1 with
          | (bunch, w2) =>
            installAndSave x packages global save forceUpdate checkUpstream respectLocked bunch w2
              (t2 ++ [Call.createBunchfile bunch])

/-- The part of `uninstallCommand` after the manifest is in hand (commands.go
134-152): remove from the vendor tree, then, under `--save`, remove every
package from the manifest and save. -/
def removeAndSave {ω β : Type} (x : Ext ω β) (packages : List String) (global save : Bool)
    (bunch : β) (w : ω) (t : List (Call β)) : Result ω β :=
  match x.removePackages packages bunch global w with
  | (some err, _, w1) =>
    ⟨.fatal ("failed removing packages: " ++ err.text), w1,
      t ++ [Call.removePackages packages bunch global (some err)]⟩
  | (none, bunch1, w1) =>
    let t1 := t ++ [Call.removePackages packages bunch global none]
    if save then
      match removeFromSaveList x packages bunch1 w1 with
      | (some (pack, err), _, w2, tr) =>
        ⟨.fatal ("failed removing package " ++ pack ++ " from save list: " ++ err.text), w2,
          t1 ++ tr⟩
      | (none, bunch2, w2, tr) =>
        match x.Save bunch2 w2 with
        | (some err, w3) =>
          ⟨.fatal ("failed saving Bunchfile: " ++ err.text), w3,
            t1 ++ tr ++ [Call.Save bunch2 (some err)]⟩
        | (none, w3) => ⟨.ok, w3, t1 ++ tr ++ [Call.Save bunch2 none]⟩
    else ⟨.ok, w1, t1⟩

/-- `uninstallCommand` (commands.go 102-154). -/
def uninstallCommand {ω β : Type} (x : Ext ω β) (c : Context) (w : ω) : Result ω β :=
  let packages := c.Args
  match setupVendoring x.MkdirAll w with
  | (some err, w1, t1) => ⟨.fatal ("unable to set up vendor dirs: " ++ err.text), w1, t1⟩
  | (none, w1, t1) =>
    if packages.length = 0 then
      ⟨.fatal "uninstall requires an argument", w1, t1⟩
    else
      let global := c.g
      let save := c.save
      match gopathMissing x global w1 with
      | (true, tg) => ⟨.fatal "GOPATH must be set when -g used", w1, t1 ++ tg⟩
      | (false, tg) =>
        let t2 := t1 ++ tg ++ [Call.pathExists "Bunchfile" (x.pathExists "Bunchfile" w1)]
        if x.pathExists "Bunchfile" w1 then
          match x.readBunchfile w1 with
          | (.err err, w2) =>
            ⟨.fatal ("unable to read Bunchfile: " ++ err.text), w2,
              t2 ++ [Call.readBunchfile (.err err)]⟩
          | (.ok bunch, w2) =>
            removeAndSave x packages global save bunch w2 (t2 ++ [Call.readBunchfile (.ok bunch)])
        else
          match x.createBunchfile w1 with
          | (bunch, w2) =>
            removeAndSave x packages global save bunch w2 (t2 ++ [Call.createBunchfile bunch])

/-- `pruneCommand` (commands.go 156-178). -/
def pruneCommand {ω β : Type} (x : Ext ω β) (w : ω) : Result ω β :=
  match setupVendoring x.MkdirAll w with
  | (some err, w1, t1) => ⟨.fatal ("unable to set up vendor dirs: " ++ err.text), w1, t1⟩
  | (none, w1, t1) =>
    let t2 := t1 ++ [Call.pathExists "Bunchfile" (x.pathExists "Bunchfile" w1)]
    if x.pathExists "Bunchfile" w1 then
      match x.readBunchfile w1 with
      | (.err err, w2) =>
        ⟨.fatal ("unable to read Bunchfile: " ++ err.text), w2, t2 ++ [Call.readBunchfile (.err err)]⟩
      | (.ok bunch, w2) =>
        let t3 := t2 ++ [Call.readBunchfile (.ok bunch)]
        match x.prunePackages bunch w2 with
        | (some err, w3) =>
          ⟨.fatal ("failed pruning packages: " ++ err.text), w3,
            t3 ++ [Call.prunePackages bunch (some err)]⟩
        | (none, w3) => ⟨.ok, w3, t3 ++ [Call.prunePackages bunch none]⟩
    else ⟨.fatal "can't prune without Bunchfile", w1, t2⟩

/-- `outdatedCommand` (commands.go 180-202). The type assertion of line 200
panics on an error that is not an `*errors.Err`, as in `installCommand`. -/
def outdatedCommand {ω β : Type} (x : Ext ω β) (w : ω) : Result ω β :=
  match setupVendoring x.MkdirAll w with
  | (some err, w1, t1) => ⟨.fatal ("unable to set up vendor dirs: " ++ err.text), w1, t1⟩
  | (none, w1, t1) =>
    let t2 := t1 ++ [Call.pathExists "Bunchfile" (x.pathExists "Bunchfile" w1)]
    if x.pathExists "Bunchfile" w1 then
      match x.readBunchfile w1 with
      | (.err err, w2) =>
        ⟨.fatal ("unable to read Bunchfile: " ++ err.text), w2, t2 ++ [Call.readBunchfile (.err err)]⟩
      | (.ok bunch, w2) =>
        let t3 := t2 ++ [Call.readBunchfile (.ok bunch)]
        match x.checkOutdatedPackages bunch w2 with
        | (some err, w3) =>
          let t4 := t3 ++ [Call.checkOutdatedPackages bunch (some err)]
          match err.stack with
          | none => ⟨.panic "interface conversion: error is not *errors.Err", w3, t4⟩
          | some st =>
            ⟨.fatal ("failed checking for outdated packages: " ++ err.text ++ " " ++ fmtStrings st),
              w3, t4⟩
        | (none, w3) => ⟨.ok, w3, t3 ++ [Call.checkOutdatedPackages bunch none]⟩
    else ⟨.fatal "can't check for outdated packages without Bunchfile", w1, t2⟩

/-- `lockCommand` (commands.go 204-227). -/
def lockCommand {ω β : Type} (x : Ext ω β) (w : ω) : Result ω β :=
  match setupVendoring x.MkdirAll w with
  | (some err, w1, t1) => ⟨.fatal ("unable to set up vendor dirs: " ++ err.text), w1, t1⟩
  | (none, w1, t1) =>
    let t2 := t1 ++ [Call.pathExists "Bunchfile" (x.pathExists "Bunchfile" w1)]
    if x.pathExists "Bunchfile" w1 then
      match x.readBunchfile w1 with
      | (.err err, w2) =>
        ⟨.fatal ("unable to read Bunchfile: " ++ err.text), w2, t2 ++ [Call.readBunchfile (.err err)]⟩
      | (.ok bunch, w2) =>
        let t3 := t2 ++ [Call.readBunchfile (.ok bunch)]
        match x.lockPackages bunch w2 with
        | (some err, w3) =>
          ⟨.fatal ("failed locking packages: " ++ err.text), w3,
            t3 ++ [Call.lockPackages bunch (some err)]⟩
        | (none, w3) => ⟨.ok, w3, t3 ++ [Call.lockPackages bunch none]⟩
    else ⟨.fatal "can't lock packages without Bunchfile", w1, t2⟩

/-- `generateCommand` (commands.go 229-241). -/
def generateCommand {ω β : Type} (x : Ext ω β) (w : ω) : Result ω β :=
  match setupVendoring x.MkdirAll w with
  | (some err, w1, t1) => ⟨.fatal ("unable to set up vendor dirs: " ++ err.text), w1, t1⟩
  | (none, w1, t1) =>
    match x.generateBunchfile w1 with
    | (some err, w2) =>
      ⟨.fatal ("failed checking for outdated packages: " ++ err.text), w2,
        t1 ++ [Call.generateBunchfile (some err)]⟩
    | (none, w2) => ⟨.ok, w2, t1 ++ [Call.generateBunchfile none]⟩

/-- `goCommand` (commands.go 243-262). -/
def goCommand {ω β : Type} (x : Ext ω β) (c : Context) (w : ω) : Result ω β :=
  match x.setVendorEnv w with
  | (some err, w1) =>
    ⟨.fatal ("unable to set vendor env: " ++ err.text), w1, [Call.setVendorEnv (some err)]⟩
  | (none, w1) =>
    match x.Run "go" c.Args w1 with
    | (some err, w2) =>
      ⟨.fatal ("running 'go " ++ " ".intercalate c.Args ++ "' failed: " ++ err.text), w2,
        [Call.setVendorEnv none, Call.Run "go" c.Args (some err)]⟩
    | (none, w2) => ⟨.ok, w2, [Call.setVendorEnv none, Call.Run "go" c.Args none]⟩

/-- The slice expression `xs[n:]`: out of range when `n` is beyond the length. -/
def sliceFrom (xs : List String) (n : Nat) : Option (List String) :=
  if n ≤ xs.length then some (xs.drop n) else none

/-- `execCommand` (commands.go 264-281). Both operands of line 272 are bounds
checked: the slice expression `c.Args()[1:]` is `sliceFrom c.Args 1` and the
index expression `c.Args()[0]` is `c.Args[0]?`. On the empty list both are out
of range; the Go run time reports the slice expression. -/
def execCommand {ω β : Type} (x : Ext ω β) (c : Context) (w : ω) : Result ω β :=
  match x.setVendorEnv w with
  | (some err, w1) =>
    ⟨.fatal ("unable to set vendor env: " ++ err.text), w1, [Call.setVendorEnv (some err)]⟩
  | (none, w1) =>
    match sliceFrom c.Args 1 with
    | none =>
      ⟨.panic "runtime error: slice bounds out of range [1:0]", w1, [Call.setVendorEnv none]⟩
    | some rest =>
      match c.Args[0]? with
      | none =>
        ⟨.panic "runtime error: index out of range [0] with length 0", w1,
          [Call.setVendorEnv none]⟩
      | some name =>
        match x.Run name rest w1 with
        | (some err, w2) =>
          ⟨.fatal ("running '" ++ " ".intercalate c.Args ++ "' failed: " ++ err.text), w2,
            [Call.setVendorEnv none, Call.Run name rest (some err)]⟩
        | (none, w2) => ⟨.ok, w2, [Call.setVendorEnv none, Call.Run name rest none]⟩

/-- `shellCommand` (commands.go 283-310). -/
def shellCommand {ω β : Type} (x : Ext ω β) (w : ω) : Result ω β :=
  let envShell := x.Getenv "SHELL" w
  let shell := if envShell != "" then envShell else "/bin/bash"
  let t0 : List (Call β) := [Call.Getenv "SHELL" envShell]
  match x.setVendorEnv w with
  | (some err, w1) =>
    ⟨.fatal ("unable to set vendor env: " ++ err.text), w1, t0 ++ [Call.setVendorEnv (some err)]⟩
  | (none, w1) =>
    let t1 := t0 ++ [Call.setVendorEnv none, Call.Print ("starting bunch shell (" ++ shell ++ ")\n")]
    match x.Run shell [] w1 with
    | (some err, w2) =>
      ⟨.fatal ("running '" ++ shell ++ "' failed: " ++ err.text), w2,
        t1 ++ [Call.Run shell [] (some err)]⟩
    | (none, w2) =>
      ⟨.ok, w2, t1 ++ [Call.Run shell [] none, Call.Print "exiting bunch shell\n"]⟩

/-- The package variable `shimScript`. -/
def shimScript : String :=
  "#!/bin/bash\n\nPATH=$(echo \"$PATH\" | sed -e \"s|$HOME/.bunch/shims:||g\")\n\n" ++
  "if [[ -n $(echo \"$PATH\" | grep .bunch/shims) ]]; then\n" ++
  "  echo bunch warning: unable to remove shim from PATH, falling back to backup PATH\n" ++
  "  PATH=/usr/local/bin:/usr/local/sbin:/usr/sbin:/usr/bin:/bin\nfi\n\n" ++
  "if [[ -f \"Bunchfile\" && -d \".vendor\" ]]; then\n  WD=$(pwd)\n" ++
  "  GOPATH=\"$WD/.vendor/\" GOBIN=\"$GOPATH/bin\" PATH=\"$GOBIN:$PATH\"  go $@\n" ++
  "else\n  go $@\nfi\n"

/-- `shimCommand` (commands.go 329-351). -/
def shimCommand {ω β : Type} (x : Ext ω β) (c : Context) (w : ω) : Result ω β :=
  let home := x.Getenv "HOME" w
  let t0 : List (Call β) := [Call.Getenv "HOME" home]
  match x.MkdirAll (x.pathJoin [home, ".bunch", "shims"]) 0o755 w with
  | (some err, w1) =>
    ⟨.fatal "unable to create ~/.bunch", w1,
      t0 ++ [Call.MkdirAll (x.pathJoin [home, ".bunch", "shims"]) 0o755 (some err)]⟩
  | (none, w1) =>
    let home1 := x.Getenv "HOME" w1
    let goShimDir := x.pathJoin [home1, ".bunch", "shims"]
    let goShimPath := x.pathJoin [goShimDir, "go"]
    let t1 := t0 ++ [Call.MkdirAll (x.pathJoin [home, ".bunch", "shims"]) 0o755 none,
      Call.Getenv "HOME" home1]
    match x.WriteFile goShimPath shimScript 0o755 w1 with
    | (some err, w2) =>
      ⟨.fatal "unable to create shim", w2, t1 ++ [Call.WriteFile goShimPath shimScript 0o755 (some err)]⟩
    | (none, w2) =>
      let t2 := t1 ++ [Call.WriteFile goShimPath shimScript 0o755 none]
      if c.Args.length > 0 then
        ⟨.ok, w2, t2 ++ [Call.Print ("export PATH=" ++ goShimDir ++ ":$PATH\n")]⟩
      else
        ⟨.ok, w2, t2 ++ [Call.Print ("To have 'go' be automatically bunch-aware, add this to " ++
          ".bash_profile or .zshrc:\n\nif which bunch > /dev/null; then eval \"$(bunch shim -)\"; fi\n")]⟩

/-! ## Observations on the list of calls -/

/-- A call that mutates the manifest: `AddPackage`, `RemovePackage` or `Save`. -/
inductive Mutation where
  | add (pack : String)
  | remove (pack : String)
  | save
  deriving DecidableEq, Repr

/-- The manifest mutation a call is, if it is one. -/
def Call.mutation? {β : Type} : Call β → Option Mutation
  | .AddPackage _ pack _ => some (.add pack)
  | .RemovePackage _ pack _ => some (.remove pack)
  | .Save _ _ => some .save
  | _ => none

/-- The manifest mutations among the calls, in order. -/
def mutations {β : Type} (t : List (Call β)) : List Mutation :=
  t.filterMap Call.mutation?

/-- The arguments of a call of `installPackagesFromRepoStrings`. -/
def Call.repoFetch? {β : Type} : Call β → Option (List String × Bool × Bool × Bool × Bool)
  | .installPackagesFromRepoStrings packages global forceUpdate checkUpstream respectLocked _ =>
    some (packages, global, forceUpdate, checkUpstream, respectLocked)
  | _ => none

/-- The argument tuples with which `installPackagesFromRepoStrings` was invoked. -/
def repoFetches {β : Type} (t : List (Call β)) : List (List String × Bool × Bool × Bool × Bool) :=
  t.filterMap Call.repoFetch?

/-- Whether the call fetches or removes packages: `installPackagesFromBunchfile`,
`installPackagesFromRepoStrings` or `removePackages`. -/
def Call.fetchesOrRemoves {β : Type} : Call β → Bool
  | .installPackagesFromBunchfile _ _ _ _ _ => true
  | .installPackagesFromRepoStrings _ _ _ _ _ _ => true
  | .removePackages _ _ _ _ => true
  | _ => false

/-- Whether the call is `bunch.Save()`. -/
def Call.isSave {β : Type} : Call β → Bool
  | .Save _ _ => true
  | _ => false

/-- Whether the process ended in failure (`log.Fatalf` or a panic). -/
def Outcome.failed : Outcome → Bool
  | .ok => false
  | _ => true

/-! ## A file-system model for `os.MkdirAll` -/

/-- The file system: the paths that are directories and the regular files with
their contents. -/
structure FS where
  dirs : List String
  files : List (String × String)
  deriving DecidableEq, Repr

/-- The prefixes of a slash-separated path that end at a separator, then the
path itself. -/
def pathPrefixesAux (seen : List Char) : List Char → List (List Char)
  | [] => [seen]
  | ch :: cs =>
    if ch = '/' then seen :: pathPrefixesAux (seen ++ [ch]) cs
    else pathPrefixesAux (seen ++ [ch]) cs

/-- The ancestors of a path, outermost first, and the path: `a/b` gives `a`, `a/b`. -/
def pathPrefixes (path : String) : List String :=
  ((pathPrefixesAux [] path.data).filter (fun cs => !cs.isEmpty)).map String.mk

/-- Whether a regular file has this path. -/
def FS.isFile (fs : FS) (p : String) : Bool :=
  fs.files.any (fun f => f.1 == p)

/-- Create the listed directories in turn: one that is a directory already is
left alone, one that is a regular file fails with `ENOTDIR`. -/
def FS.mkdirChain (fs : FS) : List String → Option GoError × FS
  | [] => (none, fs)
  | p :: rest =>
    if p ∈ fs.dirs then FS.mkdirChain fs rest
    else if fs.isFile p then (some ⟨"mkdir " ++ p ++ ": not a directory", none⟩, fs)
    else FS.mkdirChain { fs with dirs := fs.dirs ++ [p] } rest

/-- Model of `os.MkdirAll` of the Go standard library: it creates the directory
and every missing ancestor, does nothing where they exist, and fails with a
`*PathError` at the first ancestor that is a regular file. -/
def FS.MkdirAll (path : String) (_perm : Nat) (fs : FS) : Option GoError × FS :=
  fs.mkdirChain (pathPrefixes path)

/-- Whether the call is one of the steps that come before a fetch or a removal:
vendor setup, the `GOPATH` check, and reading or creating the manifest. -/
def Call.prepares {β : Type} : Call β → Bool
  | .MkdirAll _ _ _ => true
  | .Getenv _ _ => true
  | .pathExists _ _ => true
  | .readBunchfile _ => true
  | .createBunchfile _ => true
  | _ => false

/-- The `forceUpdate`, `checkUpstream` and `respectLocked` a fetch call was given. -/
def Call.fetchFlags? {β : Type} : Call β → Option (Bool × Bool × Bool)
  | .installPackagesFromBunchfile _ forceUpdate checkUpstream respectLocked _ =>
    some (forceUpdate, checkUpstream, respectLocked)
  | .installPackagesFromRepoStrings _ _ forceUpdate checkUpstream respectLocked _ =>
    some (forceUpdate, checkUpstream, respectLocked)
  | _ => none

/-- The call with the three fetch flags blanked. -/
def Call.eraseFlags {β : Type} : Call β → Call β
  | .installPackagesFromBunchfile bunch _ _ _ err =>
    .installPackagesFromBunchfile bunch false false false err
  | .installPackagesFromRepoStrings packages global _ _ _ err =>
    .installPackagesFromRepoStrings packages global false false false err
  | ev => ev

/-- The helpers in which the two fetch functions are always given these three
flags, whatever the caller passes. -/
def fixFlags {ω β : Type} (x : Ext ω β) (forceUpdate checkUpstream respectLocked : Bool) :
    Ext ω β :=
  { x with
    installPackagesFromBunchfile := fun bunch _ _ _ =>
      x.installPackagesFromBunchfile bunch forceUpdate checkUpstream respectLocked
    installPackagesFromRepoStrings := fun packages global _ _ _ =>
      x.installPackagesFromRepoStrings packages global forceUpdate checkUpstream respectLocked }

/-- The state of the file `Bunchfile`. -/
inductive ManifestState (β : Type) where
  | absent
  | readable (bunch : β)
  | unreadable (err : GoError)
  deriving DecidableEq, Repr

/-- Whether `readBunchfile` fails in this state although the file exists. -/
def ManifestState.isUnreadable {β : Type} : ManifestState β → Bool
  | .unreadable _ => true
  | _ => false

/-- The helpers over a `Bunchfile` in the given state: `pathExists("Bunchfile")`
and `readBunchfile()` answer for that state, every other helper is unchanged. -/
def withManifest {ω β : Type} (x : Ext ω β) (m : ManifestState β) : Ext ω β :=
  { x with
    pathExists := fun path w =>
      if path = "Bunchfile" then
        (match m with
          | .absent => false
          | _ => true)
      else x.pathExists path w
    readBunchfile := fun w =>
      match m with
      | .absent => (.err ⟨"open Bunchfile: no such file or directory", none⟩, w)
      | .readable bunch => (.ok bunch, w)
      | .unreadable err => (.err err, w) }

/-- Whether the call is a `bunch.AddPackage` that returned an error. -/
def Call.addFailed {β : Type} : Call β → Bool
  | .AddPackage _ _ (some _) => true
  | _ => false

/-! ## A sample environment

Concrete helpers over the file-system model, used to run the commands on
explicit inputs. The manifest is the list of its package paths, stored in the
file `Bunchfile` one path a line; a fetched package is a directory below
`.vendor/src`. -/

/-- The lines of a text. -/
def splitLines : List Char → List (List Char)
  | [] => []
  | ch :: cs =>
    if ch = '\n' then [] :: splitLines cs
    else
      match splitLines cs with
      | [] => [[ch]]
      | line :: rest => (ch :: line) :: rest

/-- The source-cache directory of a package. -/
def srcDir (pack : String) : String := ".vendor/src/" ++ pack

/-- Helpers that all succeed. No environment variable is set. -/
def sampleExt : Ext FS (List String) where
  MkdirAll := FS.MkdirAll
  WriteFile := fun path data _ fs =>
    (none, { fs with files := (path, data) :: fs.files.filter (fun f => f.1 != path) })
  Getenv := fun _ _ => ""
  pathExists := fun path fs => fs.isFile path || fs.dirs.contains path
  readBunchfile := fun fs =>
    match fs.files.lookup "Bunchfile" with
    | some text => (.ok ((splitLines text.data).map String.mk), fs)
    | none => (.err ⟨"open Bunchfile: no such file or directory", none⟩, fs)
  createBunchfile := fun fs => ([], fs)
  installPackagesFromBunchfile := fun bunch _ _ _ fs =>
    (none, { fs with dirs := fs.dirs ++ bunch.map srcDir })
  installPackagesFromRepoStrings := fun packages _ _ _ _ fs =>
    (none, { fs with dirs := fs.dirs ++ packages.map srcDir })
  AddPackage := fun bunch pack fs => (none, bunch ++ [pack], fs)
  RemovePackage := fun bunch pack fs => (none, bunch.filter (fun q => q != pack), fs)
  Save := fun bunch fs =>
    (none, { fs with files :=
      ("Bunchfile", "\n".intercalate bunch) :: fs.files.filter (fun f => f.1 != "Bunchfile") })
  removePackages := fun packages bunch _ fs =>
    (none, bunch, { fs with dirs := fs.dirs.filter (fun d => !(packages.map srcDir).contains d) })
  prunePackages := fun _ fs => (none, fs)
  checkOutdatedPackages := fun _ fs => (none, fs)
  lockPackages := fun _ fs => (none, fs)
  generateBunchfile := fun fs => (none, fs)
  setVendorEnv := fun fs => (none, fs)
  Run := fun _ _ fs => (none, fs)
  pathJoin := fun parts => "/".intercalate (parts.filter (fun part => part != ""))

/-- The empty project directory. -/
def emptyFS : FS := { dirs := [], files := [] }

/-- A project directory whose `Bunchfile` lists `github.com/acme/foo`. -/
def projectFS : FS := { dirs := [], files := [("Bunchfile", "github.com/acme/foo")] }

/-- A directory in which `.vendor` is a regular file. -/
def blockedFS : FS := { dirs := [], files := [(".vendor", "")] }

/-- The sample helpers, with a fetch from repository strings that fails. -/
def fetchFailsExt : Ext FS (List String) :=
  { sampleExt with
    installPackagesFromRepoStrings := fun _ _ _ _ _ fs =>
      (some ⟨"exit status 1", some []⟩, fs) }

/-- The sample helpers, with an `AddPackage` that fails. -/
def addFailsExt : Ext FS (List String) :=
  { sampleExt with
    AddPackage := fun bunch pack fs => (some ⟨"invalid package " ++ pack, none⟩, bunch, fs) }

/-- The sample helpers, with a `generateBunchfile` that fails. -/
def generateFailsExt : Ext FS (List String) :=
  { sampleExt with generateBunchfile := fun fs => (some ⟨"disk full", none⟩, fs) }

/-- A directory in which `.bunch` is a regular file. -/
def shimBlockedFS : FS := { dirs := [], files := [(".bunch", "")] }

/-- The command line `install github.com/acme/foo --save`. -/
def installFooSave : Context := { Args := ["github.com/acme/foo"], g := false, save := true }

/-- The command line `install github.com/acme/foo github.com/acme/bar --save`. -/
def installFooBarSave : Context :=
  { Args := ["github.com/acme/foo", "github.com/acme/bar"], g := false, save := true }

/-- The command line `install github.com/acme/foo`. -/
def installFoo : Context := { Args := ["github.com/acme/foo"], g := false, save := false }

/-- The command line `uninstall github.com/acme/foo`. -/
def uninstallFoo : Context := { Args := ["github.com/acme/foo"], g := false, save := false }

/-- The command line `install -g`, without arguments. -/
def installGlobalNoArgs : Context := { Args := [], g := true, save := false }

/-- The command line `install github.com/acme/foo -g`. -/
def installFooGlobal : Context := { Args := ["github.com/acme/foo"], g := true, save := false }

/-- The directories `setupVendoring` may create. -/
def vendorTree : List String := [".vendor", ".vendor/bin", ".vendor/pkg", ".vendor/src"]

/-- A project directory with its vendor directories and a `Bunchfile`. -/
def vendoredFS : FS :=
  { dirs := [".vendor", ".vendor/bin", ".vendor/pkg", ".vendor/src"],
    files := [("Bunchfile", "github.com/acme/foo")] }

/-- A command line without arguments or flags. -/
def noArgs : Context := { Args := [], g := false, save := false }

/-- The command line `exec make test`. -/
def execMakeTest : Context := { Args := ["make", "test"], g := false, save := false }

/-! ## The helpers of the outdated check, from the specification -/

/-- Modelled from the spec: `readBunchfile`, which the sources call and do not
define. The manifest store's `read` gives the manifest, or an error when the
manifest file is absent or unparseable (4.2); it is a read, so the file system
is given back as it was. `parse` stands for the manifest format. -/
def specReadBunchfile {β : Type} (parse : String → ReadResult β) (fs : FS) :
    ReadResult β × FS :=
  match fs.files.lookup "Bunchfile" with
  | none => (.err ⟨"open Bunchfile: no such file or directory", none⟩, fs)
  | some text => (parse text, fs)

/-- Modelled from the spec: `checkOutdatedPackages`, which the sources call and
do not define. The outdated operation calls `checkOutstream` for every manifest
package and reports local against upstream revision (4.6); `checkOutstream` is a
read-only comparison that must not mutate the source cache, the manifest or the
lock (4.5) and may fail with a fetch error. The first such error is returned and
the file system is given back as it was. `paths` lists the import paths of the
manifest and `checkOutstream` stands for the source-control tooling. -/
def specCheckOutdatedPackages {β : Type} (paths : β → List String)
    (checkOutstream : FS → String → Except GoError (String × String)) (bunch : β) (fs : FS) :
    Option GoError × FS :=
  ((paths bunch).findSome? (fun importPath =>
      match checkOutstream fs importPath with
      | .error e => some e
      | .ok _ => none), fs)

/-- The helpers over the file-system model in which `os.MkdirAll` is the model
and `readBunchfile` and `checkOutdatedPackages` are as the specification
describes them; every other helper is as given. -/
def specExt {β : Type} (x : Ext FS β) (parse : String → ReadResult β) (paths : β → List String)
    (checkOutstream : FS → String → Except GoError (String × String)) : Ext FS β :=
  { x with
    MkdirAll := FS.MkdirAll
    readBunchfile := specReadBunchfile parse
    checkOutdatedPackages := specCheckOutdatedPackages paths checkOutstream }

/-- The manifest format of the sample environment: one import path a line. -/
def sampleParse (text : String) : ReadResult (List String) :=
  .ok ((splitLines text.data).map String.mk)

/-- A source-control answer in which every package is at its upstream revision. -/
def sampleCheckOutstream (_fs : FS) (_importPath : String) : Except GoError (String × String) :=
  .ok ("abc123", "abc123")

/-! ## Lemmas -/

theorem pathPrefixes_bin : pathPrefixes ".vendor/bin" = [".vendor", ".vendor/bin"] := by decide

theorem pathPrefixes_pkg : pathPrefixes ".vendor/pkg" = [".vendor", ".vendor/pkg"] := by decide

theorem pathPrefixes_src : pathPrefixes ".vendor/src" = [".vendor", ".vendor/src"] := by decide

theorem mkdirChain_dirs_mono (l : List String) (fs : FS) :
    ∀ d ∈ fs.dirs, d ∈ (fs.mkdirChain l).2.dirs := by
  induction l generalizing fs with
  | nil => intro d hd; simpa [FS.mkdirChain] using hd
  | cons p rest ih =>
    intro d hd
    unfold FS.mkdirChain
    split
    · exact ih fs d hd
    · split
      · exact hd
      · exact ih _ d (by simp [hd])

theorem mkdirChain_files (l : List String) (fs : FS) : (fs.mkdirChain l).2.files = fs.files := by
  induction l generalizing fs with
  | nil => rfl
  | cons p rest ih =>
    unfold FS.mkdirChain
    split
    · exact ih fs
    · split
      · rfl
      · rw [ih]

theorem mkdirChain_ok_mem (l : List String) (fs : FS) (h : (fs.mkdirChain l).1 = none) :
    ∀ p ∈ l, p ∈ (fs.mkdirChain l).2.dirs := by
  induction l generalizing fs with
  | nil => intro p hp; cases hp
  | cons q rest ih =>
    unfold FS.mkdirChain at h ⊢
    intro p hp
    split at h
    · rename_i hq
      simp only [hq, if_true]
      rcases List.mem_cons.1 hp with rfl | hp
      · exact mkdirChain_dirs_mono rest fs p hq
      · exact ih fs h p hp
    · rename_i hq
      simp only [hq, if_false]
      split at h
      · cases h
      · rename_i hf
        simp only [hf]
        rcases List.mem_cons.1 hp with rfl | hp
        · exact mkdirChain_dirs_mono rest _ p (by simp)
        · exact ih _ h p hp

theorem mkdirChain_of_all_mem (l : List String) (fs : FS) (h : ∀ p ∈ l, p ∈ fs.dirs) :
    fs.mkdirChain l = (none, fs) := by
  induction l with
  | nil => rfl
  | cons q rest ih =>
    unfold FS.mkdirChain
    rw [if_pos (h q (by simp))]
    exact ih (fun p hp => h p (by simp [hp]))

/-- The calls of the loop of `setupVendoring`: either every listed directory was
created, or the calls stop at the first `os.MkdirAll` that failed. -/
theorem setupVendoringLoop_calls {ω β : Type} (mk : String → Nat → ω → Option GoError × ω)
    (l : List String) (w : ω) :
    ((setupVendoringLoop (β := β) mk l w).1 = none ∧
      (setupVendoringLoop (β := β) mk l w).2.2 = l.map (fun d => Call.MkdirAll d 0o755 none)) ∨
    (∃ k e0, k < l.length ∧
      (setupVendoringLoop (β := β) mk l w).1 = some (errorsTrace e0) ∧
      (setupVendoringLoop (β := β) mk l w).2.2 =
        (l.take k).map (fun d => Call.MkdirAll d 0o755 none) ++
          [Call.MkdirAll (l.getD k "") 0o755 (some e0)]) := by
  induction l generalizing w with
  | nil => left; exact ⟨rfl, rfl⟩
  | cons d rest ih =>
    unfold setupVendoringLoop
    rcases hmk : mk d 0o755 w with ⟨_ | e, w1⟩
    · rcases ih w1 with ⟨h1, h2⟩ | ⟨k, e0, hk, h1, h2⟩
      · left
        simp only [h1, h2, List.map_cons, and_self]
      · right
        refine ⟨k + 1, e0, by simpa using hk, ?_, ?_⟩
        · simp only [h1]
        · simp only [h2, List.take_succ_cons, List.map_cons, List.cons_append, List.getD_cons_succ]
    · right
      exact ⟨0, e, by simp, rfl, by simp⟩

theorem setupVendoringLoop_dirs_mono {β : Type} (l : List String) (fs : FS) :
    ∀ d ∈ fs.dirs, d ∈ (setupVendoringLoop (β := β) FS.MkdirAll l fs).2.1.dirs := by
  induction l generalizing fs with
  | nil => intro d hd; exact hd
  | cons q rest ih =>
    intro d hd
    unfold setupVendoringLoop
    rcases hmk : FS.MkdirAll q 0o755 fs with ⟨_ | e, fs1⟩
    · have h1 : d ∈ fs1.dirs := by
        have := mkdirChain_dirs_mono (pathPrefixes q) fs d hd
        unfold FS.MkdirAll at hmk
        rwa [hmk] at this
      exact ih fs1 d h1
    · have h1 : d ∈ fs1.dirs := by
        have := mkdirChain_dirs_mono (pathPrefixes q) fs d hd
        unfold FS.MkdirAll at hmk
        rwa [hmk] at this
      exact h1

theorem setupVendoringLoop_files {β : Type} (l : List String) (fs : FS) :
    (setupVendoringLoop (β := β) FS.MkdirAll l fs).2.1.files = fs.files := by
  induction l generalizing fs with
  | nil => rfl
  | cons q rest ih =>
    unfold setupVendoringLoop
    have hf := mkdirChain_files (pathPrefixes q) fs
    rcases hmk : FS.MkdirAll q 0o755 fs with ⟨_ | e, fs1⟩
    · unfold FS.MkdirAll at hmk
      rw [hmk] at hf
      simp only at hf ⊢
      rw [ih fs1, hf]
    · unfold FS.MkdirAll at hmk
      rw [hmk] at hf
      exact hf

theorem setupVendoringLoop_ok_mem {β : Type} (l : List String) (fs : FS)
    (h : (setupVendoringLoop (β := β) FS.MkdirAll l fs).1 = none) :
    ∀ d ∈ l, ∀ p ∈ pathPrefixes d,
      p ∈ (setupVendoringLoop (β := β) FS.MkdirAll l fs).2.1.dirs := by
  induction l generalizing fs with
  | nil => intro d hd; cases hd
  | cons q rest ih =>
    intro d hd p hp
    unfold setupVendoringLoop at h ⊢
    rcases hmk : FS.MkdirAll q 0o755 fs with ⟨_ | e, fs1⟩
    · rw [hmk] at h
      simp only at h ⊢
      rcases List.mem_cons.1 hd with rfl | hd
      · have h1 : p ∈ fs1.dirs := by
          have := mkdirChain_ok_mem (pathPrefixes d) fs
          unfold FS.MkdirAll at hmk
          rw [hmk] at this
          exact this rfl p hp
        exact setupVendoringLoop_dirs_mono rest fs1 p h1
      · exact ih fs1 h d hd p hp
    · rw [hmk] at h
      cases h

theorem setupVendoringLoop_of_all_mem {β : Type} (l : List String) (fs : FS)
    (h : ∀ d ∈ l, ∀ p ∈ pathPrefixes d, p ∈ fs.dirs) :
    setupVendoringLoop (β := β) FS.MkdirAll l fs =
      (none, fs, l.map (fun d => Call.MkdirAll d 0o755 none)) := by
  induction l with
  | nil => rfl
  | cons q rest ih =>
    unfold setupVendoringLoop
    have hmk : FS.MkdirAll q 0o755 fs = (none, fs) :=
      mkdirChain_of_all_mem _ fs (h q (by simp))
    rw [hmk]
    simp only [ih (fun d hd => h d (by simp [hd])), List.map_cons]

/-- C8. `setupVendoring` over the file-system model: after a call that succeeds
`.vendor/bin`, `.vendor/pkg` and `.vendor/src` are directories, and a second call
right after it succeeds too and leaves the file system as it is; a call that
fails returns the (traced) error of the `os.MkdirAll` that failed, and the
directories listed after that one were not attempted. -/
theorem setupVendoring_creates_and_is_idempotent {β : Type} (fs : FS) :
    ((setupVendoring (β := β) FS.MkdirAll fs).1 = none →
      ".vendor/bin" ∈ (setupVendoring (β := β) FS.MkdirAll fs).2.1.dirs ∧
      ".vendor/pkg" ∈ (setupVendoring (β := β) FS.MkdirAll fs).2.1.dirs ∧
      ".vendor/src" ∈ (setupVendoring (β := β) FS.MkdirAll fs).2.1.dirs ∧
      (setupVendoring (β := β) FS.MkdirAll fs).2.2 =
        vendorDirs.map (fun d => Call.MkdirAll d 0o755 none) ∧
      (setupVendoring (β := β) FS.MkdirAll (setupVendoring (β := β) FS.MkdirAll fs).2.1).1 = none ∧
      (setupVendoring (β := β) FS.MkdirAll (setupVendoring (β := β) FS.MkdirAll fs).2.1).2.1 =
        (setupVendoring (β := β) FS.MkdirAll fs).2.1) ∧
    ((setupVendoring (β := β) FS.MkdirAll fs).1 ≠ none →
      ∃ k e0, k < vendorDirs.length ∧
        (setupVendoring (β := β) FS.MkdirAll fs).1 = some (errorsTrace e0) ∧
        (errorsTrace e0).text = e0.text ∧
        (setupVendoring (β := β) FS.MkdirAll fs).2.2 =
          (vendorDirs.take k).map (fun d => Call.MkdirAll d 0o755 none) ++
            [Call.MkdirAll (vendorDirs.getD k "") 0o755 (some e0)]) := by
  unfold setupVendoring
  constructor
  · intro h
    have hmem := setupVendoringLoop_ok_mem (β := β) vendorDirs fs h
    have hcalls := setupVendoringLoop_calls (β := β) FS.MkdirAll vendorDirs fs
    have hidem := setupVendoringLoop_of_all_mem (β := β) vendorDirs
      (setupVendoringLoop (β := β) FS.MkdirAll vendorDirs fs).2.1 hmem
    refine ⟨?_, ?_, ?_, ?_, ?_, ?_⟩
    · exact hmem ".vendor/bin" (by simp [vendorDirs]) _ (by simp [pathPrefixes_bin])
    · exact hmem ".vendor/pkg" (by simp [vendorDirs]) _ (by simp [pathPrefixes_pkg])
    · exact hmem ".vendor/src" (by simp [vendorDirs]) _ (by simp [pathPrefixes_src])
    · rcases hcalls with ⟨_, h2⟩ | ⟨k, e0, _, h1, _⟩
      · exact h2
      · rw [h] at h1; cases h1
    · rw [hidem]
    · rw [hidem]
  · intro h
    rcases setupVendoringLoop_calls (β := β) FS.MkdirAll vendorDirs fs with
      ⟨h1, _⟩ | ⟨k, e0, hk, h1, h2⟩
    · exact absurd h1 h
    · exact ⟨k, e0, hk, h1, rfl, h2⟩

theorem setupVendoring_calls_mem {ω β : Type} (mk : String → Nat → ω → Option GoError × ω)
    (w : ω) : ∀ ev ∈ (setupVendoring (β := β) mk w).2.2, ∃ p m e, ev = Call.MkdirAll p m e := by
  intro ev hev
  unfold setupVendoring at hev
  rcases setupVendoringLoop_calls (β := β) mk vendorDirs w with ⟨_, h2⟩ | ⟨k, e0, _, _, h2⟩
  · rw [h2] at hev
    rcases List.mem_map.1 hev with ⟨d, _, rfl⟩
    exact ⟨_, _, _, rfl⟩
  · rw [h2] at hev
    rcases List.mem_append.1 hev with h | h
    · rcases List.mem_map.1 h with ⟨d, _, rfl⟩
      exact ⟨_, _, _, rfl⟩
    · rw [List.mem_singleton] at h
      exact ⟨_, _, _, h⟩

theorem gopathMissing_calls_mem {ω β : Type} (x : Ext ω β) (g : Bool) (w : ω) :
    ∀ ev ∈ (gopathMissing x g w).2, ∃ k v, ev = Call.Getenv k v := by
  intro ev hev
  unfold gopathMissing at hev
  split at hev
  · rw [List.mem_singleton] at hev
    exact ⟨_, _, hev⟩
  · cases hev

theorem addPackages_calls_mem {ω β : Type} (x : Ext ω β) (l : List String) (b : β) (w : ω) :
    ∀ ev ∈ (addPackages x l b w).2.2.2, ∃ b1 p e, ev = Call.AddPackage b1 p e := by
  induction l generalizing b w with
  | nil => intro ev hev; cases hev
  | cons q rest ih =>
    intro ev hev
    unfold addPackages at hev
    rcases hq : x.AddPackage b q w with ⟨_ | e, b1, w1⟩
    · rw [hq] at hev
      rcases List.mem_cons.1 hev with h | h
      · exact ⟨_, _, _, h⟩
      · exact ih b1 w1 ev h
    · rw [hq] at hev
      rw [List.mem_singleton] at hev
      exact ⟨_, _, _, hev⟩

theorem removeFromSaveList_calls_mem {ω β : Type} (x : Ext ω β) (l : List String) (b : β)
    (w : ω) :
    ∀ ev ∈ (removeFromSaveList x l b w).2.2.2, ∃ b1 p e, ev = Call.RemovePackage b1 p e := by
  induction l generalizing b w with
  | nil => intro ev hev; cases hev
  | cons q rest ih =>
    intro ev hev
    unfold removeFromSaveList at hev
    rcases hq : x.RemovePackage b q w with ⟨_ | e, b1, w1⟩
    · rw [hq] at hev
      rcases List.mem_cons.1 hev with h | h
      · exact ⟨_, _, _, h⟩
      · exact ih b1 w1 ev h
    · rw [hq] at hev
      rw [List.mem_singleton] at hev
      exact ⟨_, _, _, hev⟩

/-- A list of calls none of which is a manifest mutation. -/
theorem mutations_eq_nil_of {β : Type} (t : List (Call β))
    (h : ∀ ev ∈ t, ev.mutation? = none) : mutations t = [] := by
  unfold mutations
  exact List.filterMap_eq_nil_iff.2 h

theorem mutations_append {β : Type} (s t : List (Call β)) :
    mutations (s ++ t) = mutations s ++ mutations t := by
  unfold mutations
  exact List.filterMap_append _ _ _

theorem prepares_mutation {β : Type} (ev : Call β) (h : ev.prepares = true) :
    ev.mutation? = none := by
  cases ev <;> simp_all [Call.prepares, Call.mutation?]

theorem prepares_repoFetch {β : Type} (ev : Call β) (h : ev.prepares = true) :
    ev.repoFetch? = none := by
  cases ev <;> simp_all [Call.prepares, Call.repoFetch?]

theorem prepares_fetchesOrRemoves {β : Type} (ev : Call β) (h : ev.prepares = true) :
    ev.fetchesOrRemoves = false := by
  cases ev <;> simp_all [Call.prepares, Call.fetchesOrRemoves]

theorem prepares_isSave {β : Type} (ev : Call β) (h : ev.prepares = true) :
    ev.isSave = false := by
  cases ev <;> simp_all [Call.prepares, Call.isSave]

theorem setupVendoring_prepares {ω β : Type} (mk : String → Nat → ω → Option GoError × ω)
    (w : ω) : ∀ ev ∈ (setupVendoring (β := β) mk w).2.2, ev.prepares = true := by
  intro ev hev
  rcases setupVendoring_calls_mem mk w ev hev with ⟨_, _, _, rfl⟩
  rfl

theorem gopathMissing_prepares {ω β : Type} (x : Ext ω β) (g : Bool) (w : ω) :
    ∀ ev ∈ (gopathMissing x g w).2, ev.prepares = true := by
  intro ev hev
  rcases gopathMissing_calls_mem x g w ev hev with ⟨_, _, rfl⟩
  rfl

/-- With arguments, `installCommand` either stops during its preparing steps or
hands over to the fetch-and-save part; every call before that prepares. -/
theorem installCommand_args_shape {ω β : Type} (x : Ext ω β) (c : Context)
    (fu cu rl : Bool) (w : ω) (hargs : c.Args ≠ []) :
    ∃ pre : List (Call β), (∀ ev ∈ pre, ev.prepares = true) ∧
      ((∃ msg, installCommand x c fu cu rl w =
          ⟨.fatal msg, (installCommand x c fu cu rl w).world, pre⟩) ∨
        (∃ bunch w2, installCommand x c fu cu rl w =
          installAndSave x c.Args c.g c.save fu cu rl bunch w2 pre)) := by
  have hlen : ¬ c.Args.length = 0 := by
    intro h; exact hargs (List.length_eq_zero.1 h)
  unfold installCommand
  have hsv := setupVendoring_prepares (β := β) x.MkdirAll w
  rcases hs : setupVendoring (β := β) x.MkdirAll w with ⟨_ | e, w1, t1⟩
  · rw [hs] at hsv
    simp only [hlen, if_false]
    have hgp := gopathMissing_prepares (β := β) x c.g w1
    rcases hg : gopathMissing (β := β) x c.g w1 with ⟨_ | _, tg⟩
    · rw [hg] at hgp
      simp only
      have hpre : ∀ ev ∈ t1 ++ tg ++ [Call.pathExists "Bunchfile" (x.pathExists "Bunchfile" w1)],
          ev.prepares = true := by
        intro ev hev
        simp only [List.mem_append, List.mem_singleton] at hev
        rcases hev with (h | h) | h
        · exact hsv ev h
        · exact hgp ev h
        · rw [h]; rfl
      by_cases hpe : x.pathExists "Bunchfile" w1 = true
      · simp only [hpe, if_true]
        rcases hr : x.readBunchfile w1 with ⟨b | e, w2⟩
        · refine ⟨_, ?_, Or.inr ⟨b, w2, rfl⟩⟩
          intro ev hev
          rcases List.mem_append.1 hev with h | h
          · simpa [hpe] using hpre ev (by simpa [hpe] using h)
          · rw [List.mem_singleton] at h; rw [h]; rfl
        · refine ⟨_, ?_, Or.inl ⟨_, rfl⟩⟩
          intro ev hev
          rcases List.mem_append.1 hev with h | h
          · simpa [hpe] using hpre ev (by simpa [hpe] using h)
          · rw [List.mem_singleton] at h; rw [h]; rfl
      · simp only [hpe]
        refine ⟨_, ?_, Or.inr ⟨(x.createBunchfile w1).1, (x.createBunchfile w1).2, rfl⟩⟩
        intro ev hev
        rcases List.mem_append.1 hev with h | h
        · have := hpre ev (by simpa [hpe] using h)
          exact this
        · rw [List.mem_singleton] at h; rw [h]; rfl
    · rw [hg] at hgp
      refine ⟨t1 ++ tg, ?_, Or.inl ⟨_, rfl⟩⟩
      intro ev hev
      rcases List.mem_append.1 hev with h | h
      · exact hsv ev h
      · exact hgp ev h
  · rw [hs] at hsv
    exact ⟨t1, hsv, Or.inl ⟨_, rfl⟩⟩

/-- The loop over `AddPackage`: either every call succeeded and each package was
added once, in order, or the calls stop at the first one that failed. -/
theorem addPackages_spec {ω β : Type} (x : Ext ω β) (l : List String) (b : β) (w : ω) :
    ((addPackages x l b w).1 = none ∧
      mutations (addPackages x l b w).2.2.2 = l.map Mutation.add ∧
      ∀ ev ∈ (addPackages x l b w).2.2.2, ∃ b1 p, ev = Call.AddPackage b1 p none) ∨
    (∃ k pack e, l[k]? = some pack ∧ (addPackages x l b w).1 = some (pack, e) ∧
      mutations (addPackages x l b w).2.2.2 = (l.take (k + 1)).map Mutation.add ∧
      ∃ b1, Call.AddPackage b1 pack (some e) ∈ (addPackages x l b w).2.2.2) := by
  induction l generalizing b w with
  | nil => left; exact ⟨rfl, rfl, fun ev hev => by cases hev⟩
  | cons q rest ih =>
    unfold addPackages
    rcases hq : x.AddPackage b q w with ⟨_ | e, b1, w1⟩
    · rcases ih b1 w1 with ⟨h1, h2, h3⟩ | ⟨k, pack, e, hk, h1, h2, b2, h3⟩
      · left
        refine ⟨h1, ?_, ?_⟩
        · simp only [mutations, List.filterMap_cons, Call.mutation?, List.map_cons] at h2 ⊢
          rw [h2]
        · intro ev hev
          rcases List.mem_cons.1 hev with h | h
          · exact ⟨_, _, h⟩
          · exact h3 ev h
      · right
        refine ⟨k + 1, pack, e, by simpa using hk, h1, ?_, b2, ?_⟩
        · simp only [mutations, List.filterMap_cons, Call.mutation?, List.take_succ_cons,
            List.map_cons] at h2 ⊢
          rw [h2]
        · exact List.mem_cons_of_mem _ h3
    · right
      refine ⟨0, q, e, by simp, rfl, ?_, b, by simp⟩
      simp [mutations, Call.mutation?]

/-- The fetch-and-save part of `installCommand`, case by case. -/
theorem installAndSave_cases {ω β : Type} (x : Ext ω β) (p : List String) (g s : Bool)
    (fu cu rl : Bool) (b : β) (w : ω) (t : List (Call β)) :
    (∃ e w1, x.installPackagesFromRepoStrings p g fu cu rl w = (some e, w1) ∧
      installAndSave x p g s fu cu rl b w t =
        ⟨.fatal ("failed installing packages: " ++ e.text), w1,
          t ++ [Call.installPackagesFromRepoStrings p g fu cu rl (some e)]⟩) ∨
    (∃ w1, x.installPackagesFromRepoStrings p g fu cu rl w = (none, w1) ∧ s = false ∧
      installAndSave x p g s fu cu rl b w t =
        ⟨.ok, w1, t ++ [Call.installPackagesFromRepoStrings p g fu cu rl none]⟩) ∨
    (∃ w1 pack e, x.installPackagesFromRepoStrings p g fu cu rl w = (none, w1) ∧ s = true ∧
      (addPackages x p b w1).1 = some (pack, e) ∧
      installAndSave x p g s fu cu rl b w t =
        ⟨.fatal ("failed adding package " ++ pack ++ " to save list: " ++ e.text),
          (addPackages x p b w1).2.2.1,
          t ++ [Call.installPackagesFromRepoStrings p g fu cu rl none] ++
            (addPackages x p b w1).2.2.2⟩) ∨
    (∃ w1, x.installPackagesFromRepoStrings p g fu cu rl w = (none, w1) ∧ s = true ∧
      (addPackages x p b w1).1 = none ∧
      (installAndSave x p g s fu cu rl b w t).calls =
        t ++ [Call.installPackagesFromRepoStrings p g fu cu rl none] ++
          (addPackages x p b w1).2.2.2 ++
          [Call.Save (addPackages x p b w1).2.1
            (x.Save (addPackages x p b w1).2.1 (addPackages x p b w1).2.2.1).1] ∧
      (installAndSave x p g s fu cu rl b w t).world =
        (x.Save (addPackages x p b w1).2.1 (addPackages x p b w1).2.2.1).2 ∧
      (installAndSave x p g s fu cu rl b w t).outcome =
        (match (x.Save (addPackages x p b w1).2.1 (addPackages x p b w1).2.2.1).1 with
          | some e => Outcome.fatal ("failed saving Bunchfile: " ++ e.text)
          | none => Outcome.ok)) := by
  unfold installAndSave
  rcases hf : x.installPackagesFromRepoStrings p g fu cu rl w with ⟨_ | e, w1⟩
  · cases s
    · right; left
      exact ⟨w1, rfl, rfl, by simp⟩
    · right; right
      rcases ha : addPackages x p b w1 with ⟨_ | ⟨pack, e⟩, b1, w2, ta⟩
      · right
        refine ⟨w1, rfl, rfl, ?_⟩
        rcases hsv : x.Save b1 w2 with ⟨_ | e, w3⟩
        · simp [ha, hsv]
        · simp [ha, hsv]
      · left
        refine ⟨w1, pack, e, rfl, rfl, ?_⟩
        simp [ha]
  · left
    exact ⟨e, w1, rfl, rfl⟩

/-- C1. With arguments: when `installPackagesFromRepoStrings` returns an error,
`installCommand` performs no `AddPackage` and no `Save` and ends with
`failed installing packages`; and whenever it does mutate the manifest, a
successful fetch call comes before the first mutation. -/
theorem installCommand_fetch_error_no_mutation {ω β : Type} (x : Ext ω β) (c : Context)
    (fu cu rl : Bool) (w : ω) (hargs : c.Args ≠ []) :
    (∀ pk g a b d e,
      Call.installPackagesFromRepoStrings pk g a b d (some e) ∈
          (installCommand x c fu cu rl w).calls →
        mutations (installCommand x c fu cu rl w).calls = [] ∧
        (installCommand x c fu cu rl w).outcome =
          Outcome.fatal ("failed installing packages: " ++ e.text)) ∧
    (mutations (installCommand x c fu cu rl w).calls ≠ [] →
      ∃ pre post, (installCommand x c fu cu rl w).calls =
          pre ++ Call.installPackagesFromRepoStrings c.Args c.g fu cu rl none :: post ∧
        mutations pre = []) := by
  rcases installCommand_args_shape x c fu cu rl w hargs with ⟨pre, hpre, ⟨msg, hr⟩ | ⟨b0, w2, hr⟩⟩
  · have hmut : mutations pre = [] :=
      mutations_eq_nil_of pre (fun ev hev => prepares_mutation ev (hpre ev hev))
    rw [hr]
    refine ⟨?_, fun h => absurd hmut h⟩
    intro pk g a b d e hmem
    have := hpre _ hmem
    simp [Call.prepares] at this
  · have hmut : mutations pre = [] :=
      mutations_eq_nil_of pre (fun ev hev => prepares_mutation ev (hpre ev hev))
    rw [hr]
    rcases installAndSave_cases x c.Args c.g c.save fu cu rl b0 w2 pre with
      ⟨e, w1, _, h⟩ | ⟨w1, _, _, h⟩ | ⟨w1, pack, e, _, _, _, h⟩ | ⟨w1, _, _, _, h, _, _⟩
    · rw [h]
      constructor
      · intro pk g a b d e1 hmem
        simp only [List.mem_append, List.mem_singleton] at hmem
        rcases hmem with hmem | hmem
        · have := hpre _ hmem
          simp [Call.prepares] at this
        · injection hmem with _ _ _ _ _ he
          injection he with he
          subst he
          exact ⟨by rw [mutations_append, hmut]; rfl, rfl⟩
      · intro hne
        exact absurd (by rw [mutations_append, hmut]; rfl) hne
    · rw [h]
      constructor
      · intro pk g a b d e1 hmem
        simp only [List.mem_append, List.mem_singleton] at hmem
        rcases hmem with hmem | hmem
        · have := hpre _ hmem
          simp [Call.prepares] at this
        · injection hmem with _ _ _ _ _ he
          cases he
      · intro hne
        exact absurd (by rw [mutations_append, hmut]; rfl) hne
    · rw [h]
      constructor
      · intro pk g a b d e1 hmem
        simp only [List.mem_append, List.mem_singleton] at hmem
        rcases hmem with (hmem | hmem) | hmem
        · have := hpre _ hmem
          simp [Call.prepares] at this
        · injection hmem with _ _ _ _ _ he
          cases he
        · rcases addPackages_calls_mem x c.Args b0 w1 _ hmem with ⟨_, _, _, h1⟩
          cases h1
      · intro _
        exact ⟨pre, (addPackages x c.Args b0 w1).2.2.2, by simp, hmut⟩
    · rw [h]
      constructor
      · intro pk g a b d e1 hmem
        simp only [List.mem_append, List.mem_singleton] at hmem
        rcases hmem with ((hmem | hmem) | hmem) | hmem
        · have := hpre _ hmem
          simp [Call.prepares] at this
        · injection hmem with _ _ _ _ _ he
          cases he
        · rcases addPackages_calls_mem x c.Args b0 w1 _ hmem with ⟨_, _, _, h1⟩
          cases h1
        · cases hmem
      · intro _
        exact ⟨pre, (addPackages x c.Args b0 w1).2.2.2 ++
          [Call.Save (addPackages x c.Args b0 w1).2.1
            (x.Save (addPackages x c.Args b0 w1).2.1 (addPackages x c.Args b0 w1).2.2.1).1],
          by simp, hmut⟩

/-- C1, on a run: the fetch of `github.com/acme/foo` fails under `--save`, and no
`AddPackage` or `Save` is performed. -/
theorem installCommand_fetch_error_no_mutation_witness :
    mutations (installCommand fetchFailsExt installFooSave false false false emptyFS).calls = [] ∧
    (installCommand fetchFailsExt installFooSave false false false emptyFS).outcome =
      Outcome.fatal ("failed installing packages: " ++ "exit status 1") :=
  (installCommand_fetch_error_no_mutation fetchFailsExt installFooSave false false false emptyFS
    (by decide)).1 ["github.com/acme/foo"] false false false false ⟨"exit status 1", some []⟩
    (by decide)

/-- A successful `install p --save` without a `Bunchfile` ends with: create the
manifest, fetch, `AddPackage(p)` on the created manifest, `Save` of what that left. -/
theorem installCommand_single_save_shape {ω β : Type} (x : Ext ω β) (c : Context)
    (fu cu rl : Bool) (w : ω) (p : String) (hp : c.Args = [p]) (hs : c.save = true)
    (hne : x.pathExists "Bunchfile" (setupVendoring (β := β) x.MkdirAll w).2.1 = false)
    (hok : (installCommand x c fu cu rl w).outcome = Outcome.ok) :
    ∃ pre wf,
      (installCommand x c fu cu rl w).calls = pre ++
        [Call.createBunchfile (x.createBunchfile (setupVendoring (β := β) x.MkdirAll w).2.1).1,
          Call.installPackagesFromRepoStrings [p] c.g fu cu rl none,
          Call.AddPackage (x.createBunchfile (setupVendoring (β := β) x.MkdirAll w).2.1).1 p none,
          Call.Save (x.AddPackage
            (x.createBunchfile (setupVendoring (β := β) x.MkdirAll w).2.1).1 p wf).2.1 none] := by
  unfold installCommand at hok ⊢
  rcases hsv : setupVendoring (β := β) x.MkdirAll w with ⟨_ | e, w1, t1⟩
  · rw [hsv] at hok hne
    simp only [hp, List.length_singleton, one_ne_zero, if_false] at hok ⊢
    simp only at hne
    rcases hg : gopathMissing (β := β) x c.g w1 with ⟨_ | _, tg⟩
    · rw [hg] at hok
      simp only [hne, hs] at hok ⊢
      unfold installAndSave at hok ⊢
      rcases hf : x.installPackagesFromRepoStrings [p] c.g fu cu rl (x.createBunchfile w1).2 with
        ⟨_ | e, w2⟩
      · rw [hf] at hok
        simp only [if_true] at hok ⊢
        unfold addPackages at hok ⊢
        rcases ha : x.AddPackage (x.createBunchfile w1).1 p w2 with ⟨_ | e, b1, w3⟩
        · rw [ha] at hok
          unfold addPackages at hok ⊢
          simp only at hok ⊢
          rcases hsave : x.Save b1 w3 with ⟨_ | e, w4⟩
          · refine ⟨t1 ++ tg ++ [Call.pathExists "Bunchfile" false], w2, ?_⟩
            simp [ha]
          · rw [hsave] at hok
            cases hok
        · rw [ha] at hok
          cases hok
      · rw [hf] at hok
        cases hok
    · rw [hg] at hok
      cases hok
  · rw [hsv] at hok
    cases hok

/-- C2, as stated, fails: the fetch of two packages succeeds under `--save`, the
first `AddPackage` returns an error, and `installCommand` stops there: one
`AddPackage`, no `Save`. -/
theorem installCommand_save_counterexample :
    Call.installPackagesFromRepoStrings installFooBarSave.Args false false false false none ∈
      (installCommand addFailsExt installFooBarSave false false false emptyFS).calls ∧
    installFooBarSave.save = true ∧
    mutations (installCommand addFailsExt installFooBarSave false false false emptyFS).calls =
      [Mutation.add "github.com/acme/foo"] ∧
    mutations (installCommand addFailsExt installFooBarSave false false false emptyFS).calls ≠
      installFooBarSave.Args.map Mutation.add ++ [Mutation.save] := by
  decide

/-- C2, amended. With arguments and a fetch that succeeded: without `--save` no
`AddPackage` and no `Save` is performed; with `--save`, if no `AddPackage` call
returns an error, `AddPackage` is called once for each package in argument order
and then `Save` once, and if an `AddPackage` call returns an error, the
packages up to that one were added in order, no `Save` follows and the command
fails. When the run succeeds for one package and no `Bunchfile` exists, the
manifest saved is the created one after `AddPackage` of that package. -/
theorem installCommand_save_adds_then_saves {ω β : Type} (x : Ext ω β) (c : Context)
    (fu cu rl : Bool) (w : ω) (hargs : c.Args ≠ [])
    (hfetch : ∃ pk g a b d, Call.installPackagesFromRepoStrings pk g a b d none ∈
      (installCommand x c fu cu rl w).calls) :
    (c.save = false → mutations (installCommand x c fu cu rl w).calls = []) ∧
    (c.save = true →
      ((∀ ev ∈ (installCommand x c fu cu rl w).calls, ev.addFailed = false) →
        mutations (installCommand x c fu cu rl w).calls =
          c.Args.map Mutation.add ++ [Mutation.save]) ∧
      ((∃ ev ∈ (installCommand x c fu cu rl w).calls, ev.addFailed = true) →
        ∃ k p e, c.Args[k]? = some p ∧
          (∃ b, Call.AddPackage b p (some e) ∈ (installCommand x c fu cu rl w).calls) ∧
          mutations (installCommand x c fu cu rl w).calls =
            (c.Args.take (k + 1)).map Mutation.add ∧
          (installCommand x c fu cu rl w).outcome =
            Outcome.fatal ("failed adding package " ++ p ++ " to save list: " ++ e.text))) ∧
    (∀ p, c.Args = [p] → c.save = true →
      x.pathExists "Bunchfile" (setupVendoring (β := β) x.MkdirAll w).2.1 = false →
      (installCommand x c fu cu rl w).outcome = Outcome.ok →
      ∃ pre wf,
        (installCommand x c fu cu rl w).calls = pre ++
          [Call.createBunchfile (x.createBunchfile (setupVendoring (β := β) x.MkdirAll w).2.1).1,
            Call.installPackagesFromRepoStrings [p] c.g fu cu rl none,
            Call.AddPackage (x.createBunchfile (setupVendoring (β := β) x.MkdirAll w).2.1).1 p none,
            Call.Save (x.AddPackage
              (x.createBunchfile (setupVendoring (β := β) x.MkdirAll w).2.1).1 p wf).2.1 none]) := by
  rw [← and_assoc]
  refine ⟨?_, fun p hp hs hne hok => installCommand_single_save_shape x c fu cu rl w p hp hs hne hok⟩
  rcases hfetch with ⟨pk, g, a, b, d, hfetch⟩
  rcases installCommand_args_shape x c fu cu rl w hargs with ⟨pre, hpre, ⟨msg, hr⟩ | ⟨b0, w2, hr⟩⟩
  · exfalso
    rw [hr] at hfetch
    have := hpre _ hfetch
    simp [Call.prepares] at this
  · have hmut : mutations pre = [] :=
      mutations_eq_nil_of pre (fun ev hev => prepares_mutation ev (hpre ev hev))
    rw [hr] at hfetch ⊢
    rcases installAndSave_cases x c.Args c.g c.save fu cu rl b0 w2 pre with
      ⟨e, w1, _, h⟩ | ⟨w1, _, hs, h⟩ | ⟨w1, pack, e, _, hs, ha, h⟩ | ⟨w1, _, hs, ha, h, _, _⟩
    · exfalso
      rw [h] at hfetch
      simp only [List.mem_append, List.mem_singleton] at hfetch
      rcases hfetch with hmem | hmem
      · have := hpre _ hmem
        simp [Call.prepares] at this
      · injection hmem with _ _ _ _ _ he
        cases he
    · rw [h]
      refine ⟨fun _ => by rw [mutations_append, hmut]; rfl, fun hst => ?_⟩
      rw [hs] at hst
      cases hst
    · rw [h]
      refine ⟨fun hsf => (by rw [hs] at hsf; cases hsf), fun _ => ⟨?_, ?_⟩⟩
      · intro hall
        exfalso
        rcases addPackages_spec x c.Args b0 w1 with ⟨h1, _, _⟩ | ⟨k, p1, e1, _, _, _, b1, h4⟩
        · rw [ha] at h1; cases h1
        · have := hall (Call.AddPackage b1 p1 (some e1)) (by simp [h4])
          simp [Call.addFailed] at this
      · intro _
        rcases addPackages_spec x c.Args b0 w1 with ⟨h1, _, _⟩ | ⟨k, p1, e1, h1, h2, h3, b1, h4⟩
        · rw [ha] at h1; cases h1
        · rw [ha] at h2
          injection h2 with h2
          injection h2 with hp he
          subst hp he
          refine ⟨k, pack, e, h1, ⟨b1, by simp [h4]⟩, ?_, rfl⟩
          simp only [mutations_append, hmut, h3, List.nil_append]
          rfl
    · rw [h]
      refine ⟨fun hsf => (by rw [hs] at hsf; cases hsf), fun _ => ⟨?_, ?_⟩⟩
      · intro _
        rcases addPackages_spec x c.Args b0 w1 with ⟨_, h2, _⟩ | ⟨k, p1, e1, _, h2, _⟩
        · simp only [mutations_append, hmut, h2, List.nil_append]
          rfl
        · rw [ha] at h2; cases h2
      · rintro ⟨ev, hmem, hev⟩
        exfalso
        rcases addPackages_spec x c.Args b0 w1 with ⟨_, _, h3⟩ | ⟨k, p2, e2, _, h2, _⟩
        · simp only [List.mem_append, List.mem_singleton] at hmem
          rcases hmem with ((hmem | hmem) | hmem) | hmem
          · have := hpre _ hmem
            cases ev <;> simp_all [Call.prepares, Call.addFailed]
          · rw [hmem] at hev
            simp [Call.addFailed] at hev
          · rcases h3 _ hmem with ⟨_, _, h5⟩
            rw [h5] at hev
            simp [Call.addFailed] at hev
          · rw [hmem] at hev
            simp [Call.addFailed] at hev
        · rw [ha] at h2; cases h2

/-- C2, amended, on a run: `install github.com/acme/foo --save` in an empty
project adds that package once and saves once. -/
theorem installCommand_save_adds_then_saves_witness :
    installFooSave.save = true ∧
    mutations (installCommand sampleExt installFooSave false false false emptyFS).calls =
      installFooSave.Args.map Mutation.add ++ [Mutation.save] ∧
    Call.Save ["github.com/acme/foo"] none ∈
      (installCommand sampleExt installFooSave false false false emptyFS).calls :=
  ⟨rfl,
    ((installCommand_save_adds_then_saves sampleExt installFooSave false false false emptyFS
      (by decide) ⟨_, _, _, _, _, (by decide :
        Call.installPackagesFromRepoStrings ["github.com/acme/foo"] false false false false none ∈
          (installCommand sampleExt installFooSave false false false emptyFS).calls)⟩).2.1 rfl).1
      (by decide),
    by decide⟩

theorem repoFetches_append {β : Type} (s t : List (Call β)) :
    repoFetches (s ++ t) = repoFetches s ++ repoFetches t := by
  unfold repoFetches
  exact List.filterMap_append _ _ _

theorem repoFetches_eq_nil_of {β : Type} (t : List (Call β))
    (h : ∀ ev ∈ t, ev.repoFetch? = none) : repoFetches t = [] := by
  unfold repoFetches
  exact List.filterMap_eq_nil_iff.2 h

theorem repoFetches_addPackages {ω β : Type} (x : Ext ω β) (l : List String) (b : β) (w : ω) :
    repoFetches (addPackages x l b w).2.2.2 = [] := by
  apply repoFetches_eq_nil_of
  intro ev hev
  rcases addPackages_calls_mem x l b w ev hev with ⟨_, _, _, rfl⟩
  rfl

/-- The fetch-and-save part invokes `installPackagesFromRepoStrings` once, with
the packages and flags it was handed. -/
theorem repoFetches_installAndSave {ω β : Type} (x : Ext ω β) (p : List String) (g s : Bool)
    (fu cu rl : Bool) (b : β) (w : ω) (t : List (Call β)) (ht : ∀ ev ∈ t, ev.prepares = true) :
    repoFetches (installAndSave x p g s fu cu rl b w t).calls = [(p, g, fu, cu, rl)] := by
  have h0 : repoFetches t = [] :=
    repoFetches_eq_nil_of t (fun ev hev => prepares_repoFetch ev (ht ev hev))
  rcases installAndSave_cases x p g s fu cu rl b w t with
    ⟨e, w1, _, h⟩ | ⟨w1, _, _, h⟩ | ⟨w1, pack, e, _, _, _, h⟩ | ⟨w1, _, _, _, h, _, _⟩
  · rw [h]; simp only [repoFetches_append, h0]; rfl
  · rw [h]; simp only [repoFetches_append, h0]; rfl
  · rw [h]; simp only [repoFetches_append, h0, repoFetches_addPackages]; rfl
  · rw [h]; simp only [repoFetches_append, h0, repoFetches_addPackages]; rfl

/-- With arguments, `installCommand` invokes `installPackagesFromRepoStrings`
once, with its own arguments and flags, when vendor setup, the `GOPATH` check
and the loading of the manifest all succeed, and not at all otherwise. -/
theorem installCommand_repoFetches {ω β : Type} (x : Ext ω β) (c : Context)
    (fu cu rl : Bool) (w : ω) (hargs : c.Args ≠ []) :
    ((setupVendoring (β := β) x.MkdirAll w).1 = none →
      (gopathMissing (β := β) x c.g (setupVendoring (β := β) x.MkdirAll w).2.1).1 = false →
      (x.pathExists "Bunchfile" (setupVendoring (β := β) x.MkdirAll w).2.1 = false ∨
        ∃ b, (x.readBunchfile (setupVendoring (β := β) x.MkdirAll w).2.1).1 = ReadResult.ok b) →
      repoFetches (installCommand x c fu cu rl w).calls = [(c.Args, c.g, fu, cu, rl)]) ∧
    (((setupVendoring (β := β) x.MkdirAll w).1 ≠ none ∨
      (gopathMissing (β := β) x c.g (setupVendoring (β := β) x.MkdirAll w).2.1).1 = true ∨
      (x.pathExists "Bunchfile" (setupVendoring (β := β) x.MkdirAll w).2.1 = true ∧
        ∃ e, (x.readBunchfile (setupVendoring (β := β) x.MkdirAll w).2.1).1 = ReadResult.err e)) →
      repoFetches (installCommand x c fu cu rl w).calls = []) := by
  have hlen : ¬ c.Args.length = 0 := by
    intro h; exact hargs (List.length_eq_zero.1 h)
  unfold installCommand
  have hsv := setupVendoring_prepares (β := β) x.MkdirAll w
  rcases hs : setupVendoring (β := β) x.MkdirAll w with ⟨_ | e, w1, t1⟩
  · rw [hs] at hsv
    simp only [hlen, if_false]
    have hgp := gopathMissing_prepares (β := β) x c.g w1
    rcases hg : gopathMissing (β := β) x c.g w1 with ⟨_ | _, tg⟩
    · rw [hg] at hgp
      simp only
      have hpre : ∀ ev ∈ t1 ++ tg ++ [Call.pathExists "Bunchfile" (x.pathExists "Bunchfile" w1)],
          ev.prepares = true := by
        intro ev hev
        simp only [List.mem_append, List.mem_singleton] at hev
        rcases hev with (h | h) | h
        · exact hsv ev h
        · exact hgp ev h
        · rw [h]; rfl
      by_cases hpe : x.pathExists "Bunchfile" w1 = true
      · simp only [hpe, if_true]
        rcases hr : x.readBunchfile w1 with ⟨b | e, w2⟩
        · simp only
          refine ⟨fun _ _ _ => ?_, ?_⟩
          · apply repoFetches_installAndSave
            intro ev hev
            rcases List.mem_append.1 hev with h | h
            · simpa [hpe] using hpre ev (by simpa [hpe] using h)
            · rw [List.mem_singleton] at h; rw [h]; rfl
          · rintro (h | h | ⟨_, e, h⟩)
            · exact absurd rfl h
            · cases h
            · cases h
        · simp only
          refine ⟨?_, fun _ => ?_⟩
          · rintro _ _ (h | ⟨b, h⟩)
            · cases h
            · cases h
          · apply repoFetches_eq_nil_of
            intro ev hev
            apply prepares_repoFetch
            rcases List.mem_append.1 hev with h | h
            · simpa [hpe] using hpre ev (by simpa [hpe] using h)
            · rw [List.mem_singleton] at h; rw [h]; rfl
      · simp only [hpe]
        refine ⟨fun _ _ _ => ?_, ?_⟩
        · apply repoFetches_installAndSave
          intro ev hev
          rcases List.mem_append.1 hev with h | h
          · exact hpre ev (by simpa [hpe] using h)
          · rw [List.mem_singleton] at h; rw [h]; rfl
        · rintro (h | h | ⟨h, _⟩)
          · exact absurd rfl h
          · cases h
          · cases h
    · rw [hg] at hgp
      simp only
      refine ⟨fun _ h _ => (by cases h), fun _ => ?_⟩
      apply repoFetches_eq_nil_of
      intro ev hev
      apply prepares_repoFetch
      rcases List.mem_append.1 hev with h | h
      · exact hsv ev h
      · exact hgp ev h
  · rw [hs] at hsv
    simp only
    refine ⟨fun h => (by cases h), fun _ => ?_⟩
    exact repoFetches_eq_nil_of t1 (fun ev hev => prepares_repoFetch ev (hsv ev hev))

/-- With arguments and a `Bunchfile` that exists and cannot be read,
`installCommand` fails; once vendor setup and the `GOPATH` check have passed it
stops with `unable to read Bunchfile`. -/
theorem installCommand_unreadable_outcome {ω β : Type} (x : Ext ω β) (c : Context)
    (fu cu rl : Bool) (w : ω) (hargs : c.Args ≠ []) (e : GoError)
    (hpe : x.pathExists "Bunchfile" (setupVendoring (β := β) x.MkdirAll w).2.1 = true)
    (hr : (x.readBunchfile (setupVendoring (β := β) x.MkdirAll w).2.1).1 = ReadResult.err e) :
    (installCommand x c fu cu rl w).outcome.failed = true ∧
    ((setupVendoring (β := β) x.MkdirAll w).1 = none →
      (gopathMissing (β := β) x c.g (setupVendoring (β := β) x.MkdirAll w).2.1).1 = false →
      (installCommand x c fu cu rl w).outcome =
        Outcome.fatal ("unable to read Bunchfile: " ++ e.text)) := by
  have hlen : ¬ c.Args.length = 0 := by
    intro h; exact hargs (List.length_eq_zero.1 h)
  unfold installCommand
  rcases hs : setupVendoring (β := β) x.MkdirAll w with ⟨_ | e1, w1, t1⟩
  · rw [hs] at hpe hr
    simp only at hpe hr
    simp only [hlen, if_false]
    rcases hg : gopathMissing (β := β) x c.g w1 with ⟨_ | _, tg⟩
    · simp only [hpe, if_true]
      rcases hrb : x.readBunchfile w1 with ⟨b | e2, w2⟩
      · rw [hrb] at hr
        cases hr
      · rw [hrb] at hr
        simp only at hr
        injection hr with he
        subst he
        exact ⟨rfl, fun _ _ => rfl⟩
    · exact ⟨rfl, fun _ h => (by cases h)⟩
  · exact ⟨rfl, fun h => (by cases h)⟩

/-- C3, as stated, fails: with the same arguments and flags,
`installPackagesFromRepoStrings` is invoked when the `Bunchfile` is absent and is
not invoked when the `Bunchfile` is present and unreadable. -/
theorem installCommand_fetch_manifest_counterexample :
    repoFetches (installCommand (withManifest sampleExt ManifestState.absent) installFoo
      false false false emptyFS).calls = [(["github.com/acme/foo"], false, false, false, false)] ∧
    repoFetches (installCommand
      (withManifest sampleExt (ManifestState.unreadable ⟨"permission denied", none⟩)) installFoo
      false false false emptyFS).calls = [] ∧
    repoFetches (installCommand (withManifest sampleExt ManifestState.absent) installFoo
      false false false emptyFS).calls ≠
    repoFetches (installCommand
      (withManifest sampleExt (ManifestState.unreadable ⟨"permission denied", none⟩)) installFoo
      false false false emptyFS).calls :=
  ⟨by decide, by decide, by decide⟩

/-- C3, amended. With arguments: for any two states of the `Bunchfile` in which
it is absent or readable, `installPackagesFromRepoStrings` is invoked with the same
arguments in both runs; whatever the state, an invocation that takes place has
the command's own arguments and flags; and when the `Bunchfile` is present and
unreadable there is no invocation and the command fails, with
`unable to read Bunchfile` once vendor setup and the `GOPATH` check have passed;
when it is absent or readable and those two steps have passed, the invocation
takes place. -/
theorem installCommand_fetch_args_independent_of_manifest {ω β : Type} (x : Ext ω β)
    (c : Context) (fu cu rl : Bool) (w : ω) (hargs : c.Args ≠ []) :
    (∀ m1 m2 : ManifestState β, m1.isUnreadable = false → m2.isUnreadable = false →
      repoFetches (installCommand (withManifest x m1) c fu cu rl w).calls =
        repoFetches (installCommand (withManifest x m2) c fu cu rl w).calls) ∧
    (∀ m : ManifestState β,
      repoFetches (installCommand (withManifest x m) c fu cu rl w).calls = [] ∨
      repoFetches (installCommand (withManifest x m) c fu cu rl w).calls =
        [(c.Args, c.g, fu, cu, rl)]) ∧
    (∀ e,
      repoFetches (installCommand (withManifest x (ManifestState.unreadable e)) c
        fu cu rl w).calls = [] ∧
      (installCommand (withManifest x (ManifestState.unreadable e)) c
        fu cu rl w).outcome.failed = true ∧
      ((setupVendoring (β := β) x.MkdirAll w).1 = none →
        (gopathMissing (β := β) x c.g (setupVendoring (β := β) x.MkdirAll w).2.1).1 = false →
        (installCommand (withManifest x (ManifestState.unreadable e)) c fu cu rl w).outcome =
          Outcome.fatal ("unable to read Bunchfile: " ++ e.text))) ∧
    (∀ m : ManifestState β, m.isUnreadable = false →
      (setupVendoring (β := β) x.MkdirAll w).1 = none →
      (gopathMissing (β := β) x c.g (setupVendoring (β := β) x.MkdirAll w).2.1).1 = false →
      repoFetches (installCommand (withManifest x m) c fu cu rl w).calls =
        [(c.Args, c.g, fu, cu, rl)]) := by
  have key : ∀ m : ManifestState β,
      (m.isUnreadable = false →
        (setupVendoring (β := β) x.MkdirAll w).1 = none →
        (gopathMissing (β := β) x c.g (setupVendoring (β := β) x.MkdirAll w).2.1).1 = false →
        repoFetches (installCommand (withManifest x m) c fu cu rl w).calls =
          [(c.Args, c.g, fu, cu, rl)]) ∧
      (((setupVendoring (β := β) x.MkdirAll w).1 ≠ none ∨
        (gopathMissing (β := β) x c.g (setupVendoring (β := β) x.MkdirAll w).2.1).1 = true ∨
        m.isUnreadable = true) →
        repoFetches (installCommand (withManifest x m) c fu cu rl w).calls = []) := by
    intro m
    have h := installCommand_repoFetches (withManifest x m) c fu cu rl w hargs
    constructor
    · intro hm hs hg
      apply h.1 hs hg
      cases m with
      | absent => left; simp [withManifest]
      | readable b => right; exact ⟨b, rfl⟩
      | unreadable e => cases hm
    · intro hcase
      apply h.2
      rcases hcase with hs | hg | hm
      · exact Or.inl hs
      · exact Or.inr (Or.inl hg)
      · cases m with
        | absent => cases hm
        | readable b => cases hm
        | unreadable e => exact Or.inr (Or.inr ⟨by simp [withManifest], e, rfl⟩)
  have hdec : ((setupVendoring (β := β) x.MkdirAll w).1 = none ∧
      (gopathMissing (β := β) x c.g (setupVendoring (β := β) x.MkdirAll w).2.1).1 = false) ∨
      ((setupVendoring (β := β) x.MkdirAll w).1 ≠ none ∨
      (gopathMissing (β := β) x c.g (setupVendoring (β := β) x.MkdirAll w).2.1).1 = true) := by
    by_cases hs : (setupVendoring (β := β) x.MkdirAll w).1 = none
    · cases hg : (gopathMissing (β := β) x c.g (setupVendoring (β := β) x.MkdirAll w).2.1).1
      · exact Or.inl ⟨hs, rfl⟩
      · exact Or.inr (Or.inr rfl)
    · exact Or.inr (Or.inl hs)
  refine ⟨?_, ?_, ?_, fun m hm hs hg => (key m).1 hm hs hg⟩
  · intro m1 m2 h1 h2
    rcases hdec with ⟨hs, hg⟩ | hs | hg
    · rw [(key m1).1 h1 hs hg, (key m2).1 h2 hs hg]
    · rw [(key m1).2 (Or.inl hs), (key m2).2 (Or.inl hs)]
    · rw [(key m1).2 (Or.inr (Or.inl hg)), (key m2).2 (Or.inr (Or.inl hg))]
  · intro m
    cases hm : m.isUnreadable
    · rcases hdec with ⟨hs, hg⟩ | hs | hg
      · exact Or.inr ((key m).1 hm hs hg)
      · exact Or.inl ((key m).2 (Or.inl hs))
      · exact Or.inl ((key m).2 (Or.inr (Or.inl hg)))
    · exact Or.inl ((key m).2 (Or.inr (Or.inr hm)))
  · intro e
    have hout := installCommand_unreadable_outcome (withManifest x (ManifestState.unreadable e))
      c fu cu rl w hargs e (by simp [withManifest]) rfl
    exact ⟨(key (ManifestState.unreadable e)).2 (Or.inr (Or.inr rfl)), hout.1, hout.2⟩

/-- C3, amended, on runs: the fetch is invoked alike whether the `Bunchfile` is
absent or lists a package; with an unreadable `Bunchfile` the command stops with
`unable to read Bunchfile`. -/
theorem installCommand_fetch_args_independent_of_manifest_witness :
    repoFetches (installCommand (withManifest sampleExt ManifestState.absent) installFoo
      false false false emptyFS).calls =
    repoFetches (installCommand
      (withManifest sampleExt (ManifestState.readable ["github.com/acme/bar"])) installFoo
      false false false emptyFS).calls ∧
    (installCommand
      (withManifest sampleExt (ManifestState.unreadable ⟨"permission denied", none⟩)) installFoo
      false false false emptyFS).outcome =
      Outcome.fatal ("unable to read Bunchfile: " ++ "permission denied") :=
  ⟨(installCommand_fetch_args_independent_of_manifest sampleExt installFoo false false false
      emptyFS (by decide)).1 ManifestState.absent (ManifestState.readable ["github.com/acme/bar"])
      rfl rfl,
    ((installCommand_fetch_args_independent_of_manifest sampleExt installFoo false false false
      emptyFS (by decide)).2.2.1 ⟨"permission denied", none⟩).2.2 (by decide) (by decide)⟩

theorem removeFromSaveList_props {ω β : Type} (x : Ext ω β) (l : List String) (b : β)
    (w : ω) : ∀ ev ∈ (removeFromSaveList x l b w).2.2.2,
      ev.fetchesOrRemoves = false ∧ ev.mutation? ≠ none := by
  intro ev hev
  rcases removeFromSaveList_calls_mem x l b w ev hev with ⟨_, _, _, rfl⟩
  exact ⟨rfl, by simp [Call.mutation?]⟩

/-- The remove-and-save part of `uninstallCommand`: its calls are the ones made
before, then `removePackages`, then, only under `--save` and only after a
removal that succeeded, calls of `RemovePackage` and `Save`. -/
theorem removeAndSave_calls {ω β : Type} (x : Ext ω β) (p : List String) (g s : Bool)
    (b : β) (w : ω) (t : List (Call β)) :
    ∃ post, (removeAndSave x p g s b w t).calls =
        t ++ Call.removePackages p b g (x.removePackages p b g w).1 :: post ∧
      (∀ ev ∈ post, ev.fetchesOrRemoves = false) ∧
      (s = false → post = []) ∧
      ((removeAndSave x p g s b w t).outcome = Outcome.ok →
        (x.removePackages p b g w).1 = none) := by
  unfold removeAndSave
  rcases hf : x.removePackages p b g w with ⟨_ | e, b1, w1⟩
  · cases s
    · exact ⟨[], by simp, by simp, fun _ => rfl, fun _ => rfl⟩
    · have hmem := removeFromSaveList_props x p b1 w1
      rcases ha : removeFromSaveList x p b1 w1 with ⟨_ | ⟨pack, e⟩, b2, w2, tr⟩
      · rw [ha] at hmem
        rcases hsv : x.Save b2 w2 with ⟨_ | e, w3⟩
        · refine ⟨tr ++ [Call.Save b2 none], by simp [ha, hsv], ?_, by simp, fun _ => rfl⟩
          intro ev hev
          rcases List.mem_append.1 hev with h | h
          · exact (hmem ev h).1
          · rw [List.mem_singleton] at h; rw [h]; rfl
        · refine ⟨tr ++ [Call.Save b2 (some e)], by simp [ha, hsv], ?_, by simp, fun _ => rfl⟩
          intro ev hev
          rcases List.mem_append.1 hev with h | h
          · exact (hmem ev h).1
          · rw [List.mem_singleton] at h; rw [h]; rfl
      · rw [ha] at hmem
        exact ⟨tr, by simp [ha], fun ev hev => (hmem ev hev).1, by simp, fun _ => rfl⟩
  · exact ⟨[], by simp, by simp, fun _ => rfl, fun h => by simp at h⟩

/-- With arguments, `uninstallCommand` either stops during its preparing steps
or hands over to the remove-and-save part; what it does up to there does not
depend on the save flag. -/
theorem uninstallCommand_args_shape {ω β : Type} (x : Ext ω β) (c : Context) (w : ω)
    (hargs : c.Args ≠ []) :
    ∃ pre : List (Call β), (∀ ev ∈ pre, ev.prepares = true) ∧
      ((∃ msg w1, ∀ s, uninstallCommand x { c with save := s } w = ⟨.fatal msg, w1, pre⟩) ∨
        (∃ bunch w2, ∀ s, uninstallCommand x { c with save := s } w =
          removeAndSave x c.Args c.g s bunch w2 pre)) := by
  have hlen : ¬ c.Args.length = 0 := by
    intro h; exact hargs (List.length_eq_zero.1 h)
  unfold uninstallCommand
  have hsv := setupVendoring_prepares (β := β) x.MkdirAll w
  rcases hs : setupVendoring (β := β) x.MkdirAll w with ⟨_ | e, w1, t1⟩
  · rw [hs] at hsv
    simp only [hlen, if_false]
    have hgp := gopathMissing_prepares (β := β) x c.g w1
    rcases hg : gopathMissing (β := β) x c.g w1 with ⟨_ | _, tg⟩
    · rw [hg] at hgp
      simp only
      have hpre : ∀ ev ∈ t1 ++ tg ++ [Call.pathExists "Bunchfile" (x.pathExists "Bunchfile" w1)],
          ev.prepares = true := by
        intro ev hev
        simp only [List.mem_append, List.mem_singleton] at hev
        rcases hev with (h | h) | h
        · exact hsv ev h
        · exact hgp ev h
        · rw [h]; rfl
      by_cases hpe : x.pathExists "Bunchfile" w1 = true
      · simp only [hpe, if_true]
        rcases hr : x.readBunchfile w1 with ⟨b | e, w2⟩
        · refine ⟨_, ?_, Or.inr ⟨b, w2, fun _ => rfl⟩⟩
          intro ev hev
          rcases List.mem_append.1 hev with h | h
          · simpa [hpe] using hpre ev (by simpa [hpe] using h)
          · rw [List.mem_singleton] at h; rw [h]; rfl
        · refine ⟨_, ?_, Or.inl ⟨_, _, fun _ => rfl⟩⟩
          intro ev hev
          rcases List.mem_append.1 hev with h | h
          · simpa [hpe] using hpre ev (by simpa [hpe] using h)
          · rw [List.mem_singleton] at h; rw [h]; rfl
      · simp only [hpe]
        refine ⟨_, ?_, Or.inr ⟨(x.createBunchfile w1).1, (x.createBunchfile w1).2, fun _ => rfl⟩⟩
        intro ev hev
        rcases List.mem_append.1 hev with h | h
        · exact hpre ev (by simpa [hpe] using h)
        · rw [List.mem_singleton] at h; rw [h]; rfl
    · rw [hg] at hgp
      refine ⟨t1 ++ tg, ?_, Or.inl ⟨_, _, fun _ => rfl⟩⟩
      intro ev hev
      rcases List.mem_append.1 hev with h | h
      · exact hsv ev h
      · exact hgp ev h
  · rw [hs] at hsv
    exact ⟨t1, hsv, Or.inl ⟨_, _, fun _ => rfl⟩⟩

theorem filter_single {α : Type} (q : α → Bool) (pre post : List α) (a : α)
    (hpre : ∀ y ∈ pre, q y = false) (hpost : ∀ y ∈ post, q y = false) (ha : q a = true) :
    (pre ++ a :: post).filter q = [a] := by
  have h1 : pre.filter q = [] := List.filter_eq_nil_iff.2 (fun y hy => by simp [hpre y hy])
  have h2 : post.filter q = [] := List.filter_eq_nil_iff.2 (fun y hy => by simp [hpost y hy])
  rw [List.filter_append, h1, List.filter_cons_of_pos ha, h2]
  rfl

theorem context_save_eta (c : Context) : { c with save := c.save } = c := by
  cases c; rfl

/-- C4. With arguments: without `--save`, `uninstallCommand` performs no
`RemovePackage` and no `Save`; its calls without `--save` are an initial part of
its calls with `--save`, the fetch-or-remove calls are the same in both, each is
`removePackages` of the arguments, and a run that succeeds has performed it. -/
theorem uninstallCommand_manifest_only_with_save {ω β : Type} (x : Ext ω β) (c : Context)
    (w : ω) (hargs : c.Args ≠ []) :
    (c.save = false → mutations (uninstallCommand x c w).calls = []) ∧
    ((uninstallCommand x { c with save := false } w).calls <+:
      (uninstallCommand x { c with save := true } w).calls) ∧
    ((uninstallCommand x { c with save := true } w).calls.filter Call.fetchesOrRemoves =
      (uninstallCommand x { c with save := false } w).calls.filter Call.fetchesOrRemoves) ∧
    (∀ ev ∈ (uninstallCommand x c w).calls, ev.fetchesOrRemoves = true →
      ∃ b e, ev = Call.removePackages c.Args b c.g e) ∧
    ((uninstallCommand x c w).outcome = Outcome.ok →
      ∃ b, Call.removePackages c.Args b c.g none ∈ (uninstallCommand x c w).calls) := by
  rcases uninstallCommand_args_shape x c w hargs with
    ⟨pre, hpre, ⟨msg, w1, hr⟩ | ⟨b0, w2, hr⟩⟩
  · have hc := hr c.save
    rw [context_save_eta] at hc
    have hmut : mutations pre = [] :=
      mutations_eq_nil_of pre (fun ev hev => prepares_mutation ev (hpre ev hev))
    rw [hr true, hr false, hc]
    refine ⟨fun _ => hmut, List.prefix_refl _, rfl, ?_, ?_⟩
    · intro ev hev hfr
      have := prepares_fetchesOrRemoves ev (hpre ev hev)
      rw [this] at hfr
      cases hfr
    · intro h
      cases h
  · have hc := hr c.save
    rw [context_save_eta] at hc
    have hmut : mutations pre = [] :=
      mutations_eq_nil_of pre (fun ev hev => prepares_mutation ev (hpre ev hev))
    have hpf : ∀ ev ∈ pre, ev.fetchesOrRemoves = false :=
      fun ev hev => prepares_fetchesOrRemoves ev (hpre ev hev)
    rw [hr true, hr false, hc]
    rcases removeAndSave_calls x c.Args c.g true b0 w2 pre with ⟨postT, hT, hTf, _, _⟩
    rcases removeAndSave_calls x c.Args c.g false b0 w2 pre with ⟨postF, hF, _, hFn, _⟩
    rcases removeAndSave_calls x c.Args c.g c.save b0 w2 pre with ⟨postC, hC, hCf, hCn, hCok⟩
    have hFnil : postF = [] := hFn rfl
    subst hFnil
    refine ⟨?_, ?_, ?_, ?_, ?_⟩
    · intro hs
      rw [hC, hCn hs, mutations_append, hmut]
      rfl
    · rw [hT, hF]
      refine ⟨postT, ?_⟩
      simp
    · rw [hT, hF]
      rw [filter_single Call.fetchesOrRemoves pre postT
          (Call.removePackages c.Args b0 c.g (x.removePackages c.Args b0 c.g w2).1) hpf hTf rfl,
        filter_single Call.fetchesOrRemoves pre []
          (Call.removePackages c.Args b0 c.g (x.removePackages c.Args b0 c.g w2).1) hpf
          (by simp) rfl]
    · intro ev hev hfr
      rw [hC] at hev
      rcases List.mem_append.1 hev with h | h
      · rw [hpf ev h] at hfr; cases hfr
      · rcases List.mem_cons.1 h with h | h
        · exact ⟨_, _, h⟩
        · rw [hCf ev h] at hfr; cases hfr
    · intro hok
      refine ⟨b0, ?_⟩
      rw [hC, ← hCok hok]
      simp

/-- C4, on a run: `uninstall github.com/acme/foo` without `--save` calls
`removePackages` and leaves the manifest alone. -/
theorem uninstallCommand_manifest_only_with_save_witness :
    mutations (uninstallCommand sampleExt uninstallFoo projectFS).calls = [] ∧
    Call.removePackages ["github.com/acme/foo"] ["github.com/acme/foo"] false none ∈
      (uninstallCommand sampleExt uninstallFoo projectFS).calls :=
  ⟨(uninstallCommand_manifest_only_with_save sampleExt uninstallFoo projectFS (by decide)).1 rfl,
    by decide⟩

/-- C5, as stated, fails: `install -g` without arguments, with `GOPATH` empty,
fetches the packages of the `Bunchfile` and succeeds. -/
theorem global_without_gopath_counterexample :
    installGlobalNoArgs.g = true ∧
    sampleExt.Getenv "GOPATH" projectFS = "" ∧
    (installCommand sampleExt installGlobalNoArgs false false false projectFS).outcome =
      Outcome.ok ∧
    Call.installPackagesFromBunchfile ["github.com/acme/foo"] false false false none ∈
      (installCommand sampleExt installGlobalNoArgs false false false projectFS).calls :=
  ⟨rfl, rfl, by decide, by decide⟩

/-- C5, amended. With `-g` set and `GOPATH` empty, `installCommand` with
arguments, and `uninstallCommand` with or without arguments, fail, make no call
that fetches or removes packages and do not save the manifest; once the vendor
directories are set up, `installCommand` with arguments fails with
`GOPATH must be set when -g used`. -/
theorem global_without_gopath_fails {ω β : Type} (x : Ext ω β) (c : Context)
    (fu cu rl : Bool) (w : ω) (hg : c.g = true)
    (henv : x.Getenv "GOPATH" (setupVendoring (β := β) x.MkdirAll w).2.1 = "") :
    (c.Args ≠ [] →
      (installCommand x c fu cu rl w).outcome.failed = true ∧
      (∀ ev ∈ (installCommand x c fu cu rl w).calls,
        ev.fetchesOrRemoves = false ∧ ev.isSave = false) ∧
      ((setupVendoring (β := β) x.MkdirAll w).1 = none →
        (installCommand x c fu cu rl w).outcome =
          Outcome.fatal "GOPATH must be set when -g used")) ∧
    ((uninstallCommand x c w).outcome.failed = true ∧
      ∀ ev ∈ (uninstallCommand x c w).calls,
        ev.fetchesOrRemoves = false ∧ ev.isSave = false) := by
  have hsv := setupVendoring_prepares (β := β) x.MkdirAll w
  have hgm : ∀ w1, x.Getenv "GOPATH" w1 = "" →
      gopathMissing (β := β) x c.g w1 = (true, [Call.Getenv "GOPATH" ""]) := by
    intro w1 h
    unfold gopathMissing
    simp [hg, h]
  constructor
  · intro hargs
    have hlen : ¬ c.Args.length = 0 := by
      intro h; exact hargs (List.length_eq_zero.1 h)
    unfold installCommand
    rcases hs : setupVendoring (β := β) x.MkdirAll w with ⟨_ | e, w1, t1⟩
    · rw [hs] at hsv henv
      simp only [hlen, if_false, hgm w1 henv]
      refine ⟨rfl, ?_, fun _ => trivial⟩
      intro ev hev
      rcases List.mem_append.1 hev with h | h
      · exact ⟨prepares_fetchesOrRemoves ev (hsv ev h), prepares_isSave ev (hsv ev h)⟩
      · rw [List.mem_singleton] at h; rw [h]; exact ⟨rfl, rfl⟩
    · rw [hs] at hsv
      refine ⟨rfl, ?_, fun h => (by cases h)⟩
      intro ev hev
      exact ⟨prepares_fetchesOrRemoves ev (hsv ev hev), prepares_isSave ev (hsv ev hev)⟩
  · unfold uninstallCommand
    rcases hs : setupVendoring (β := β) x.MkdirAll w with ⟨_ | e, w1, t1⟩
    · rw [hs] at hsv henv
      by_cases hlen : c.Args.length = 0
      · simp only [hlen, if_true]
        refine ⟨rfl, ?_⟩
        intro ev hev
        exact ⟨prepares_fetchesOrRemoves ev (hsv ev hev), prepares_isSave ev (hsv ev hev)⟩
      · simp only [hlen, if_false, hgm w1 henv]
        refine ⟨rfl, ?_⟩
        intro ev hev
        rcases List.mem_append.1 hev with h | h
        · exact ⟨prepares_fetchesOrRemoves ev (hsv ev h), prepares_isSave ev (hsv ev h)⟩
        · rw [List.mem_singleton] at h; rw [h]; exact ⟨rfl, rfl⟩
    · rw [hs] at hsv
      refine ⟨rfl, ?_⟩
      intro ev hev
      exact ⟨prepares_fetchesOrRemoves ev (hsv ev hev), prepares_isSave ev (hsv ev hev)⟩

/-- C5, amended, on a run: `install github.com/acme/foo -g` with `GOPATH` empty
fails with `GOPATH must be set when -g used`. -/
theorem global_without_gopath_fails_witness :
    (installCommand sampleExt installFooGlobal false false false emptyFS).outcome =
      Outcome.fatal "GOPATH must be set when -g used" :=
  ((global_without_gopath_fails sampleExt installFooGlobal false false false emptyFS rfl rfl).1
    (by decide)).2.2 (by decide)

/-- C6, as stated, fails: in an empty project directory `outdatedCommand` creates
the directory `.vendor/src` before it stops for want of a `Bunchfile`. -/
theorem outdatedCommand_counterexample :
    ".vendor/src" ∉ emptyFS.dirs ∧
    ".vendor/src" ∈ (outdatedCommand sampleExt emptyFS).world.dirs ∧
    (outdatedCommand sampleExt emptyFS).world ≠ emptyFS ∧
    (outdatedCommand sampleExt emptyFS).outcome =
      Outcome.fatal "can't check for outdated packages without Bunchfile" :=
  ⟨by decide, by decide, by decide, by decide⟩

/-- What `outdatedCommand` leaves, when `readBunchfile` and
`checkOutdatedPackages` leave the world as it is: the world `setupVendoring` left. -/
theorem outdatedCommand_world {β : Type} (x : Ext FS β) (fs : FS)
    (hread : ∀ w, (x.readBunchfile w).2 = w)
    (hcheck : ∀ b w, (x.checkOutdatedPackages b w).2 = w) :
    (outdatedCommand x fs).world = (setupVendoring (β := β) x.MkdirAll fs).2.1 := by
  unfold outdatedCommand
  rcases hs : setupVendoring (β := β) x.MkdirAll fs with ⟨_ | e, w1, t1⟩
  · simp only
    by_cases hpe : x.pathExists "Bunchfile" w1 = true
    · simp only [hpe, if_true]
      have h1 := hread w1
      rcases hr : x.readBunchfile w1 with ⟨b | e, w2⟩
      · rw [hr] at h1
        simp only at h1 ⊢
        subst h1
        have h2 := hcheck b w2
        rcases hc : x.checkOutdatedPackages b w2 with ⟨_ | e, w3⟩
        · rw [hc] at h2
          exact h2
        · rw [hc] at h2
          simp only at h2 ⊢
          cases e.stack <;> exact h2
      · rw [hr] at h1
        exact h1
    · simp only [hpe]
      rfl
  · rfl

/-- The calls of `outdatedCommand`: vendor setup, the look for the `Bunchfile`,
its reading, and `checkOutdatedPackages`. -/
theorem outdatedCommand_calls {ω β : Type} (x : Ext ω β) (w : ω) :
    ∀ ev ∈ (outdatedCommand x w).calls,
      ev.prepares = true ∨ ∃ b e, ev = Call.checkOutdatedPackages b e := by
  have hsv := setupVendoring_prepares (β := β) x.MkdirAll w
  unfold outdatedCommand
  rcases hs : setupVendoring (β := β) x.MkdirAll w with ⟨_ | e, w1, t1⟩
  · rw [hs] at hsv
    simp only
    by_cases hpe : x.pathExists "Bunchfile" w1 = true
    · simp only [hpe, if_true]
      rcases hr : x.readBunchfile w1 with ⟨b | e, w2⟩
      · simp only
        rcases hc : x.checkOutdatedPackages b w2 with ⟨_ | e, w3⟩
        · intro ev hev
          simp only [List.mem_append, List.mem_singleton] at hev
          rcases hev with ((h | h) | h) | h
          · exact Or.inl (hsv ev h)
          · rw [h]; exact Or.inl rfl
          · rw [h]; exact Or.inl rfl
          · exact Or.inr ⟨_, _, h⟩
        · simp only
          intro ev hev
          have hev1 : ev ∈ t1 ++ [Call.pathExists "Bunchfile" true] ++
              [Call.readBunchfile (ReadResult.ok b)] ++
              [Call.checkOutdatedPackages b (some e)] := by
            cases hst : e.stack <;> simpa [hst] using hev
          simp only [List.mem_append, List.mem_singleton] at hev1
          rcases hev1 with ((h | h) | h) | h
          · exact Or.inl (hsv ev h)
          · rw [h]; exact Or.inl rfl
          · rw [h]; exact Or.inl rfl
          · exact Or.inr ⟨_, _, h⟩
      · intro ev hev
        simp only [List.mem_append, List.mem_singleton] at hev
        rcases hev with (h | h) | h
        · exact Or.inl (hsv ev h)
        · rw [h]; exact Or.inl rfl
        · rw [h]; exact Or.inl rfl
    · rw [if_neg hpe]
      intro ev hev
      simp only [List.mem_append, List.mem_singleton] at hev
      rcases hev with h | h
      · exact Or.inl (hsv ev h)
      · rw [h]; exact Or.inl rfl
  · rw [hs] at hsv
    intro ev hev
    exact Or.inl (hsv ev hev)

theorem mkdirChain_dirs_sub (l : List String) (fs : FS) :
    ∀ d ∈ (fs.mkdirChain l).2.dirs, d ∈ fs.dirs ∨ d ∈ l := by
  induction l generalizing fs with
  | nil => intro d hd; exact Or.inl hd
  | cons p rest ih =>
    intro d hd
    unfold FS.mkdirChain at hd
    split at hd
    · rcases ih fs d hd with h | h
      · exact Or.inl h
      · exact Or.inr (List.mem_cons_of_mem _ h)
    · split at hd
      · exact Or.inl hd
      · rcases ih _ d hd with h | h
        · simp only [List.mem_append, List.mem_singleton] at h
          rcases h with h | h
          · exact Or.inl h
          · exact Or.inr (by simp [h])
        · exact Or.inr (List.mem_cons_of_mem _ h)

theorem setupVendoringLoop_dirs_sub {β : Type} (l : List String) (fs : FS) :
    ∀ d ∈ (setupVendoringLoop (β := β) FS.MkdirAll l fs).2.1.dirs,
      d ∈ fs.dirs ∨ ∃ q ∈ l, d ∈ pathPrefixes q := by
  induction l generalizing fs with
  | nil => intro d hd; exact Or.inl hd
  | cons q rest ih =>
    intro d hd
    unfold setupVendoringLoop at hd
    have hsub := mkdirChain_dirs_sub (pathPrefixes q) fs
    rcases hmk : FS.MkdirAll q 0o755 fs with ⟨_ | e, fs1⟩
    · rw [hmk] at hd
      unfold FS.MkdirAll at hmk
      rw [hmk] at hsub
      rcases ih fs1 d hd with h | ⟨q1, hq1, h⟩
      · rcases hsub d h with h2 | h2
        · exact Or.inl h2
        · exact Or.inr ⟨q, by simp, h2⟩
      · exact Or.inr ⟨q1, List.mem_cons_of_mem _ hq1, h⟩
    · rw [hmk] at hd
      unfold FS.MkdirAll at hmk
      rw [hmk] at hsub
      rcases hsub d hd with h2 | h2
      · exact Or.inl h2
      · exact Or.inr ⟨q, by simp, h2⟩

/-- What `outdatedCommand` does to the file system when `readBunchfile` and
`checkOutdatedPackages` give the world back as it was. -/
theorem outdatedCommand_frame {β : Type} (x : Ext FS β) (fs : FS)
    (hmk : x.MkdirAll = FS.MkdirAll)
    (hread : ∀ w, (x.readBunchfile w).2 = w)
    (hcheck : ∀ b w, (x.checkOutdatedPackages b w).2 = w) :
    mutations (outdatedCommand x fs).calls = [] ∧
    (∀ ev ∈ (outdatedCommand x fs).calls,
      ev.prepares = true ∨ ∃ b e, ev = Call.checkOutdatedPackages b e) ∧
    (outdatedCommand x fs).world.files = fs.files ∧
    (∀ d ∈ fs.dirs, d ∈ (outdatedCommand x fs).world.dirs) ∧
    (∀ d ∈ (outdatedCommand x fs).world.dirs, d ∈ fs.dirs ∨ d ∈ vendorTree) ∧
    ((∀ d ∈ vendorTree, d ∈ fs.dirs) → (outdatedCommand x fs).world = fs) := by
  have hw := outdatedCommand_world x fs hread hcheck
  rw [hmk] at hw
  have hcalls := outdatedCommand_calls x fs
  refine ⟨?_, hcalls, ?_, ?_, ?_, ?_⟩
  · apply mutations_eq_nil_of
    intro ev hev
    rcases hcalls ev hev with h | ⟨b, e, h⟩
    · exact prepares_mutation ev h
    · rw [h]; rfl
  · rw [hw]
    exact setupVendoringLoop_files vendorDirs fs
  · rw [hw]
    exact setupVendoringLoop_dirs_mono vendorDirs fs
  · rw [hw]
    intro d hd
    rcases setupVendoringLoop_dirs_sub (β := β) vendorDirs fs d hd with h | ⟨q, hq, h⟩
    · exact Or.inl h
    · right
      simp only [vendorDirs, List.mem_cons, List.mem_singleton, List.not_mem_nil, or_false] at hq
      rcases hq with rfl | rfl | rfl
      · rw [pathPrefixes_bin] at h
        simp only [List.mem_cons, List.mem_singleton, List.not_mem_nil, or_false] at h
        rcases h with rfl | rfl <;> simp [vendorTree]
      · rw [pathPrefixes_pkg] at h
        simp only [List.mem_cons, List.mem_singleton, List.not_mem_nil, or_false] at h
        rcases h with rfl | rfl <;> simp [vendorTree]
      · rw [pathPrefixes_src] at h
        simp only [List.mem_cons, List.mem_singleton, List.not_mem_nil, or_false] at h
        rcases h with rfl | rfl <;> simp [vendorTree]
  · intro hall
    rw [hw]
    unfold setupVendoring
    rw [setupVendoringLoop_of_all_mem (β := β) vendorDirs fs]
    intro d hd p hp
    apply hall
    simp only [vendorDirs, List.mem_cons, List.mem_singleton, List.not_mem_nil, or_false] at hd
    rcases hd with rfl | rfl | rfl
    · rw [pathPrefixes_bin] at hp
      simp only [List.mem_cons, List.mem_singleton, List.not_mem_nil, or_false] at hp
      rcases hp with rfl | rfl <;> simp [vendorTree]
    · rw [pathPrefixes_pkg] at hp
      simp only [List.mem_cons, List.mem_singleton, List.not_mem_nil, or_false] at hp
      rcases hp with rfl | rfl <;> simp [vendorTree]
    · rw [pathPrefixes_src] at hp
      simp only [List.mem_cons, List.mem_singleton, List.not_mem_nil, or_false] at hp
      rcases hp with rfl | rfl <;> simp [vendorTree]

/-- C6, amended. Over the file-system model, with `readBunchfile` and
`checkOutdatedPackages` as the specification describes them: `outdatedCommand`
performs no `AddPackage`, `RemovePackage` or `Save` and no call other than
vendor setup, reading the manifest and `checkOutdatedPackages`; whether it
succeeds or fails it leaves every file as it was (the manifest and the lock
among them) and every directory in place, and the only thing it writes is the
vendor layout: it adds at most `.vendor`, `.vendor/bin`, `.vendor/pkg` and
`.vendor/src`; when those four are directories beforehand the file system is
left exactly as it was. -/
theorem outdatedCommand_only_sets_up_vendor_dirs {β : Type} (x : Ext FS β)
    (parse : String → ReadResult β) (paths : β → List String)
    (checkOutstream : FS → String → Except GoError (String × String)) (fs : FS) :
    mutations (outdatedCommand (specExt x parse paths checkOutstream) fs).calls = [] ∧
    (∀ ev ∈ (outdatedCommand (specExt x parse paths checkOutstream) fs).calls,
      ev.prepares = true ∨ ∃ b e, ev = Call.checkOutdatedPackages b e) ∧
    (outdatedCommand (specExt x parse paths checkOutstream) fs).world.files = fs.files ∧
    (∀ d ∈ fs.dirs, d ∈ (outdatedCommand (specExt x parse paths checkOutstream) fs).world.dirs) ∧
    (∀ d ∈ (outdatedCommand (specExt x parse paths checkOutstream) fs).world.dirs,
      d ∈ fs.dirs ∨ d ∈ vendorTree) ∧
    ((∀ d ∈ vendorTree, d ∈ fs.dirs) →
      (outdatedCommand (specExt x parse paths checkOutstream) fs).world = fs) := by
  apply outdatedCommand_frame (specExt x parse paths checkOutstream) fs rfl
  · intro w
    show (specReadBunchfile parse w).2 = w
    unfold specReadBunchfile
    split <;> rfl
  · intro b w
    rfl

/-- C6, amended, on a run: with the vendor directories in place
`outdatedCommand` leaves the project directory as it was. -/
theorem outdatedCommand_only_sets_up_vendor_dirs_witness :
    (outdatedCommand (specExt sampleExt sampleParse id sampleCheckOutstream) vendoredFS).world =
      vendoredFS ∧
    (outdatedCommand (specExt sampleExt sampleParse id sampleCheckOutstream) vendoredFS).outcome =
      Outcome.ok :=
  ⟨(outdatedCommand_only_sets_up_vendor_dirs sampleExt sampleParse id sampleCheckOutstream
      vendoredFS).2.2.2.2.2 (by decide),
    by decide⟩

theorem addPackages_fixFlags {ω β : Type} (x : Ext ω β) (fu cu rl : Bool) (l : List String)
    (b : β) (w : ω) : addPackages (fixFlags x fu cu rl) l b w = addPackages x l b w := by
  induction l generalizing b w with
  | nil => rfl
  | cons q rest ih =>
    unfold addPackages
    show (match x.AddPackage b q w with
      | (some err, bunch1, w1) => _
      | (none, bunch1, w1) => _) = _
    rcases x.AddPackage b q w with ⟨_ | e, b1, w1⟩
    · simp only [ih]
    · rfl

theorem fetchFlags_addPackages {ω β : Type} (x : Ext ω β) (l : List String) (b : β)
    (w : ω) : ∀ ev ∈ (addPackages x l b w).2.2.2, ev.fetchFlags? = none := by
  intro ev hev
  rcases addPackages_calls_mem x l b w ev hev with ⟨_, _, _, rfl⟩
  rfl

theorem prepares_fetchFlags {β : Type} (ev : Call β) (h : ev.prepares = true) :
    ev.fetchFlags? = none := by
  cases ev <;> simp_all [Call.prepares, Call.fetchFlags?]

/-- The fetch-and-save part depends on the three flags only through
`installPackagesFromRepoStrings`. -/
theorem installAndSave_fixFlags {ω β : Type} (x : Ext ω β) (p : List String) (g s : Bool)
    (fu cu rl fu1 cu1 rl1 : Bool) (b : β) (w : ω) (t : List (Call β))
    (ht : ∀ ev ∈ t, ev.prepares = true) :
    (installAndSave x p g s fu cu rl b w t).outcome =
      (installAndSave (fixFlags x fu cu rl) p g s fu1 cu1 rl1 b w t).outcome ∧
    (installAndSave x p g s fu cu rl b w t).world =
      (installAndSave (fixFlags x fu cu rl) p g s fu1 cu1 rl1 b w t).world ∧
    (installAndSave x p g s fu cu rl b w t).calls.map Call.eraseFlags =
      (installAndSave (fixFlags x fu cu rl) p g s fu1 cu1 rl1 b w t).calls.map Call.eraseFlags ∧
    (∀ ev ∈ (installAndSave x p g s fu cu rl b w t).calls,
      ev.fetchFlags? = none ∨ ev.fetchFlags? = some (fu, cu, rl)) := by
  have hS : (fixFlags x fu cu rl).Save = x.Save := rfl
  unfold installAndSave
  rcases hf : x.installPackagesFromRepoStrings p g fu cu rl w with ⟨_ | e, w1⟩
  · have hf1 : (fixFlags x fu cu rl).installPackagesFromRepoStrings p g fu1 cu1 rl1 w =
        (none, w1) := hf
    simp only [hf1, addPackages_fixFlags, hS]
    cases s
    · refine ⟨(by trivial), (by trivial), ?_, ?_⟩
      · simp [Call.eraseFlags]
      · intro ev hev
        simp only [Bool.false_eq_true, if_false, List.mem_append, List.mem_singleton] at hev
        rcases hev with h | h
        · exact Or.inl (prepares_fetchFlags ev (ht ev h))
        · rw [h]; exact Or.inr rfl
    · have hfl := fetchFlags_addPackages x p b w1
      rcases ha : addPackages x p b w1 with ⟨_ | ⟨pack, e⟩, b1, w2, ta⟩
      · rw [ha] at hfl
        simp only [↓reduceIte]
        rcases hsv : x.Save b1 w2 with ⟨_ | e, w3⟩
        · refine ⟨(by trivial), (by trivial), ?_, ?_⟩
          · simp [Call.eraseFlags]
          · intro ev hev
            simp only [if_true, List.mem_append, List.mem_singleton] at hev
            rcases hev with ((h | h) | h) | h
            · exact Or.inl (prepares_fetchFlags ev (ht ev h))
            · rw [h]; exact Or.inr rfl
            · exact Or.inl (hfl ev h)
            · rw [h]; exact Or.inl rfl
        · refine ⟨(by trivial), (by trivial), ?_, ?_⟩
          · simp [Call.eraseFlags]
          · intro ev hev
            simp only [if_true, List.mem_append, List.mem_singleton] at hev
            rcases hev with ((h | h) | h) | h
            · exact Or.inl (prepares_fetchFlags ev (ht ev h))
            · rw [h]; exact Or.inr rfl
            · exact Or.inl (hfl ev h)
            · rw [h]; exact Or.inl rfl
      · rw [ha] at hfl
        simp only [↓reduceIte]
        refine ⟨(by trivial), (by trivial), ?_, ?_⟩
        · simp [Call.eraseFlags]
        · intro ev hev
          simp only [if_true, List.mem_append, List.mem_singleton] at hev
          rcases hev with (h | h) | h
          · exact Or.inl (prepares_fetchFlags ev (ht ev h))
          · rw [h]; exact Or.inr rfl
          · exact Or.inl (hfl ev h)
  · have hf1 : (fixFlags x fu cu rl).installPackagesFromRepoStrings p g fu1 cu1 rl1 w =
        (some e, w1) := hf
    simp only [hf1]
    refine ⟨(by trivial), (by trivial), ?_, ?_⟩
    · simp [Call.eraseFlags]
    · intro ev hev
      simp only [List.mem_append, List.mem_singleton] at hev
      rcases hev with h | h
      · exact Or.inl (prepares_fetchFlags ev (ht ev h))
      · rw [h]; exact Or.inr rfl

theorem gopathMissing_fixFlags {ω β : Type} (x : Ext ω β) (fu cu rl g : Bool) (w : ω) :
    gopathMissing (β := β) (fixFlags x fu cu rl) g w = gopathMissing x g w := rfl

/-- The run of `installCommand` depends on the three flags only through the two
fetch helpers, which receive them unchanged. -/
theorem installCommand_fixFlags {ω β : Type} (x : Ext ω β) (c : Context)
    (fu cu rl fu1 cu1 rl1 : Bool) (w : ω) :
    (installCommand x c fu cu rl w).outcome =
      (installCommand (fixFlags x fu cu rl) c fu1 cu1 rl1 w).outcome ∧
    (installCommand x c fu cu rl w).world =
      (installCommand (fixFlags x fu cu rl) c fu1 cu1 rl1 w).world ∧
    (installCommand x c fu cu rl w).calls.map Call.eraseFlags =
      (installCommand (fixFlags x fu cu rl) c fu1 cu1 rl1 w).calls.map Call.eraseFlags ∧
    (∀ ev ∈ (installCommand x c fu cu rl w).calls,
      ev.fetchFlags? = none ∨ ev.fetchFlags? = some (fu, cu, rl)) := by
  have hM : (fixFlags x fu cu rl).MkdirAll = x.MkdirAll := rfl
  have hP : (fixFlags x fu cu rl).pathExists = x.pathExists := rfl
  have hR : (fixFlags x fu cu rl).readBunchfile = x.readBunchfile := rfl
  have hC : (fixFlags x fu cu rl).createBunchfile = x.createBunchfile := rfl
  have hsv := setupVendoring_prepares (β := β) x.MkdirAll w
  unfold installCommand
  simp only [hM, hP, hR, hC, gopathMissing_fixFlags]
  rcases hs : setupVendoring (β := β) x.MkdirAll w with ⟨_ | e, w1, t1⟩
  · rw [hs] at hsv
    simp only
    by_cases hlen : c.Args.length = 0
    · simp only [hlen, if_true]
      rcases hr : x.readBunchfile w1 with ⟨b | e, w2⟩
      · simp only
        have hpre : ∀ ev ∈ t1 ++ [Call.readBunchfile (ReadResult.ok b)], ev.prepares = true := by
          intro ev hev
          rcases List.mem_append.1 hev with h | h
          · exact hsv ev h
          · rw [List.mem_singleton] at h; rw [h]; rfl
        rcases hf : x.installPackagesFromBunchfile b fu cu rl w2 with ⟨_ | e, w3⟩
        · have hf1 : (fixFlags x fu cu rl).installPackagesFromBunchfile b fu1 cu1 rl1 w2 =
              (none, w3) := hf
          simp only [hf1]
          refine ⟨(by trivial), (by trivial), ?_, ?_⟩
          · simp [Call.eraseFlags]
          · intro ev hev
            rcases List.mem_append.1 hev with h | h
            · exact Or.inl (prepares_fetchFlags ev (hpre ev h))
            · rw [List.mem_singleton] at h; rw [h]; exact Or.inr rfl
        · have hf1 : (fixFlags x fu cu rl).installPackagesFromBunchfile b fu1 cu1 rl1 w2 =
              (some e, w3) := hf
          simp only [hf1]
          cases hst : e.stack
          · simp only
            refine ⟨(by trivial), (by trivial), ?_, ?_⟩
            · simp [Call.eraseFlags]
            · intro ev hev
              rcases List.mem_append.1 hev with h | h
              · exact Or.inl (prepares_fetchFlags ev (hpre ev h))
              · rw [List.mem_singleton] at h; rw [h]; exact Or.inr rfl
          · simp only
            refine ⟨(by trivial), (by trivial), ?_, ?_⟩
            · simp [Call.eraseFlags]
            · intro ev hev
              rcases List.mem_append.1 hev with h | h
              · exact Or.inl (prepares_fetchFlags ev (hpre ev h))
              · rw [List.mem_singleton] at h; rw [h]; exact Or.inr rfl
      · simp only
        refine ⟨(by trivial), (by trivial), (by trivial), ?_⟩
        intro ev hev
        rcases List.mem_append.1 hev with h | h
        · exact Or.inl (prepares_fetchFlags ev (hsv ev h))
        · rw [List.mem_singleton] at h; rw [h]; exact Or.inl rfl
    · simp only [hlen, if_false]
      have hgp := gopathMissing_prepares (β := β) x c.g w1
      rcases hg : gopathMissing (β := β) x c.g w1 with ⟨_ | _, tg⟩
      · rw [hg] at hgp
        simp only
        have hpre : ∀ ev ∈ t1 ++ tg ++ [Call.pathExists "Bunchfile" (x.pathExists "Bunchfile" w1)],
            ev.prepares = true := by
          intro ev hev
          simp only [List.mem_append, List.mem_singleton] at hev
          rcases hev with (h | h) | h
          · exact hsv ev h
          · exact hgp ev h
          · rw [h]; rfl
        by_cases hpe : x.pathExists "Bunchfile" w1 = true
        · simp only [hpe, if_true]
          rcases hr : x.readBunchfile w1 with ⟨b | e, w2⟩
          · simp only
            apply installAndSave_fixFlags
            intro ev hev
            rcases List.mem_append.1 hev with h | h
            · simpa [hpe] using hpre ev (by simpa [hpe] using h)
            · rw [List.mem_singleton] at h; rw [h]; rfl
          · simp only
            refine ⟨(by trivial), (by trivial), (by trivial), ?_⟩
            intro ev hev
            apply Or.inl
            apply prepares_fetchFlags
            rcases List.mem_append.1 hev with h | h
            · simpa [hpe] using hpre ev (by simpa [hpe] using h)
            · rw [List.mem_singleton] at h; rw [h]; rfl
        · simp only [hpe]
          apply installAndSave_fixFlags
          intro ev hev
          rcases List.mem_append.1 hev with h | h
          · exact hpre ev (by simpa [hpe] using h)
          · rw [List.mem_singleton] at h; rw [h]; rfl
      · rw [hg] at hgp
        simp only
        refine ⟨(by trivial), (by trivial), (by trivial), ?_⟩
        intro ev hev
        apply Or.inl
        apply prepares_fetchFlags
        rcases List.mem_append.1 hev with h | h
        · exact hsv ev h
        · exact hgp ev h
  · rw [hs] at hsv
    simp only
    refine ⟨(by trivial), (by trivial), (by trivial), ?_⟩
    intro ev hev
    exact Or.inl (prepares_fetchFlags ev (hsv ev hev))

theorem takeWhile_pre {α : Type} (q : α → Bool) (pre post : List α) (a : α)
    (hpre : ∀ y ∈ pre, q y = true) (ha : q a = false) :
    (pre ++ a :: post).takeWhile q = pre := by
  induction pre with
  | nil => simp [List.takeWhile_cons, ha]
  | cons y ys ih =>
    rw [List.cons_append, List.takeWhile_cons, hpre y (by simp)]
    simp only [if_true]
    rw [ih (fun z hz => hpre z (by simp [hz]))]

theorem installAndSave_before_fetch {ω β : Type} (x : Ext ω β) (p : List String) (g s : Bool)
    (fu cu rl : Bool) (b : β) (w : ω) (t : List (Call β)) (ht : ∀ ev ∈ t, ev.prepares = true) :
    (installAndSave x p g s fu cu rl b w t).calls.takeWhile (fun ev => !ev.fetchesOrRemoves) =
      t := by
  have hq : ∀ ev ∈ t, (fun ev : Call β => !ev.fetchesOrRemoves) ev = true := by
    intro ev hev
    simp [prepares_fetchesOrRemoves ev (ht ev hev)]
  rcases installAndSave_cases x p g s fu cu rl b w t with
    ⟨e, w1, _, h⟩ | ⟨w1, _, _, h⟩ | ⟨w1, pack, e, _, _, _, h⟩ | ⟨w1, _, _, _, h, _, _⟩
  · rw [h]
    exact takeWhile_pre _ t [] _ hq rfl
  · rw [h]
    exact takeWhile_pre _ t [] _ hq rfl
  · rw [h]
    simp only [List.append_assoc, List.singleton_append]
    exact takeWhile_pre _ t _ _ hq rfl
  · rw [h]
    simp only [List.append_assoc, List.singleton_append]
    exact takeWhile_pre _ t _ _ hq rfl

/-- The calls `installCommand` makes before the fetch do not depend on the three
flags. -/
theorem installCommand_before_fetch {ω β : Type} (x : Ext ω β) (c : Context) (w : ω) :
    ∃ pre : List (Call β), ∀ fu cu rl,
      (installCommand x c fu cu rl w).calls.takeWhile (fun ev => !ev.fetchesOrRemoves) = pre := by
  have hsv := setupVendoring_prepares (β := β) x.MkdirAll w
  have hq : ∀ t : List (Call β), (∀ ev ∈ t, ev.prepares = true) →
      ∀ ev ∈ t, (fun ev : Call β => !ev.fetchesOrRemoves) ev = true := by
    intro t ht ev hev
    simp [prepares_fetchesOrRemoves ev (ht ev hev)]
  unfold installCommand
  rcases hs : setupVendoring (β := β) x.MkdirAll w with ⟨_ | e, w1, t1⟩
  · rw [hs] at hsv
    simp only
    by_cases hlen : c.Args.length = 0
    · simp only [hlen, if_true]
      rcases hr : x.readBunchfile w1 with ⟨b | e, w2⟩
      · simp only
        have hpre : ∀ ev ∈ t1 ++ [Call.readBunchfile (ReadResult.ok b)], ev.prepares = true := by
          intro ev hev
          rcases List.mem_append.1 hev with h | h
          · exact hsv ev h
          · rw [List.mem_singleton] at h; rw [h]; rfl
        refine ⟨t1 ++ [Call.readBunchfile (ReadResult.ok b)], fun fu cu rl => ?_⟩
        rcases hf : x.installPackagesFromBunchfile b fu cu rl w2 with ⟨_ | e, w3⟩
        · exact takeWhile_pre _ _ [] _ (hq _ hpre) rfl
        · simp only
          cases hst : e.stack
          · exact takeWhile_pre _ _ [] _ (hq _ hpre) rfl
          · exact takeWhile_pre _ _ [] _ (hq _ hpre) rfl
      · simp only
        refine ⟨_, fun _ _ _ => rfl⟩
    · simp only [hlen, if_false]
      have hgp := gopathMissing_prepares (β := β) x c.g w1
      rcases hg : gopathMissing (β := β) x c.g w1 with ⟨_ | _, tg⟩
      · rw [hg] at hgp
        simp only
        have hpre : ∀ ev ∈ t1 ++ tg ++ [Call.pathExists "Bunchfile" (x.pathExists "Bunchfile" w1)],
            ev.prepares = true := by
          intro ev hev
          simp only [List.mem_append, List.mem_singleton] at hev
          rcases hev with (h | h) | h
          · exact hsv ev h
          · exact hgp ev h
          · rw [h]; rfl
        by_cases hpe : x.pathExists "Bunchfile" w1 = true
        · simp only [hpe, if_true]
          rcases hr : x.readBunchfile w1 with ⟨b | e, w2⟩
          · simp only
            refine ⟨_, fun fu cu rl => installAndSave_before_fetch x _ _ _ fu cu rl b w2 _ ?_⟩
            intro ev hev
            rcases List.mem_append.1 hev with h | h
            · simpa [hpe] using hpre ev (by simpa [hpe] using h)
            · rw [List.mem_singleton] at h; rw [h]; rfl
          · simp only
            refine ⟨_, fun _ _ _ => rfl⟩
        · simp only [hpe]
          refine ⟨_, fun fu cu rl => installAndSave_before_fetch x _ _ _ fu cu rl _ _ _ ?_⟩
          intro ev hev
          rcases List.mem_append.1 hev with h | h
          · exact hpre ev (by simpa [hpe] using h)
          · rw [List.mem_singleton] at h; rw [h]; rfl
      · simp only
        refine ⟨_, fun _ _ _ => rfl⟩
  · simp only
    refine ⟨_, fun _ _ _ => rfl⟩

/-- The fetch-and-save part calls `installPackagesFromRepoStrings` with the
packages and flags it was handed, on the world it was handed, and records what
that call returned; no other call of it carries fetch flags. -/
theorem installAndSave_fetch_call {ω β : Type} (x : Ext ω β) (p : List String) (g s : Bool)
    (fu cu rl : Bool) (b : β) (w : ω) (t : List (Call β)) :
    ∃ post, (installAndSave x p g s fu cu rl b w t).calls =
        t ++ Call.installPackagesFromRepoStrings p g fu cu rl
          (x.installPackagesFromRepoStrings p g fu cu rl w).1 :: post ∧
      ∀ ev ∈ post, ev.fetchFlags? = none := by
  rcases installAndSave_cases x p g s fu cu rl b w t with
    ⟨e, w1, hf, h⟩ | ⟨w1, hf, _, h⟩ | ⟨w1, pack, e, hf, _, _, h⟩ | ⟨w1, hf, _, _, h, _, _⟩
  · rw [h, hf]
    exact ⟨[], rfl, fun ev hev => by cases hev⟩
  · rw [h, hf]
    exact ⟨[], rfl, fun ev hev => by cases hev⟩
  · rw [h, hf]
    exact ⟨(addPackages x p b w1).2.2.2, by simp, fetchFlags_addPackages x p b w1⟩
  · rw [h, hf]
    refine ⟨(addPackages x p b w1).2.2.2 ++
      [Call.Save (addPackages x p b w1).2.1
        (x.Save (addPackages x p b w1).2.1 (addPackages x p b w1).2.2.1).1], by simp, ?_⟩
    intro ev hev
    rcases List.mem_append.1 hev with h1 | h1
    · exact fetchFlags_addPackages x p b w1 ev h1
    · rw [List.mem_singleton] at h1; rw [h1]; rfl

/-- With arguments, once vendor setup, the `GOPATH` check and the loading of the
manifest have passed, `installCommand` calls `installPackagesFromRepoStrings`
with its arguments, the `-g` flag and the three flags, after preparing calls
only, and makes no other fetch call. -/
theorem installCommand_args_fetch_call {ω β : Type} (x : Ext ω β) (c : Context)
    (fu cu rl : Bool) (w : ω) (hargs : c.Args ≠ [])
    (hs : (setupVendoring (β := β) x.MkdirAll w).1 = none)
    (hg : (gopathMissing (β := β) x c.g (setupVendoring (β := β) x.MkdirAll w).2.1).1 = false)
    (hload : x.pathExists "Bunchfile" (setupVendoring (β := β) x.MkdirAll w).2.1 = false ∨
      ∃ b, (x.readBunchfile (setupVendoring (β := β) x.MkdirAll w).2.1).1 = ReadResult.ok b) :
    ∃ pre post, (installCommand x c fu cu rl w).calls =
        pre ++ Call.installPackagesFromRepoStrings c.Args c.g fu cu rl
          (x.installPackagesFromRepoStrings c.Args c.g fu cu rl
            (if x.pathExists "Bunchfile" (setupVendoring (β := β) x.MkdirAll w).2.1 = true then
              (x.readBunchfile (setupVendoring (β := β) x.MkdirAll w).2.1).2
            else (x.createBunchfile (setupVendoring (β := β) x.MkdirAll w).2.1).2)).1 :: post ∧
      (∀ ev ∈ pre, ev.prepares = true) ∧ (∀ ev ∈ post, ev.fetchFlags? = none) := by
  have hlen : ¬ c.Args.length = 0 := by
    intro h; exact hargs (List.length_eq_zero.1 h)
  have hsv := setupVendoring_prepares (β := β) x.MkdirAll w
  unfold installCommand
  rcases hs1 : setupVendoring (β := β) x.MkdirAll w with ⟨_ | e, w1, t1⟩
  · rw [hs1] at hsv hg hload
    simp only at hg hload
    simp only [hlen, if_false]
    have hgp := gopathMissing_prepares (β := β) x c.g w1
    rcases hg1 : gopathMissing (β := β) x c.g w1 with ⟨_ | _, tg⟩
    · rw [hg1] at hgp
      simp only
      have hpre : ∀ ev ∈ t1 ++ tg ++ [Call.pathExists "Bunchfile" (x.pathExists "Bunchfile" w1)],
          ev.prepares = true := by
        intro ev hev
        simp only [List.mem_append, List.mem_singleton] at hev
        rcases hev with (h | h) | h
        · exact hsv ev h
        · exact hgp ev h
        · rw [h]; rfl
      by_cases hpe : x.pathExists "Bunchfile" w1 = true
      · simp only [hpe, if_true]
        rcases hr : x.readBunchfile w1 with ⟨b | e, w2⟩
        · simp only
          rcases installAndSave_fetch_call x c.Args c.g c.save fu cu rl b w2
            (t1 ++ tg ++ [Call.pathExists "Bunchfile" true] ++
              [Call.readBunchfile (ReadResult.ok b)]) with ⟨post, h1, h2⟩
          refine ⟨_, post, h1, ?_, h2⟩
          intro ev hev
          rcases List.mem_append.1 hev with h | h
          · simpa [hpe] using hpre ev (by simpa [hpe] using h)
          · rw [List.mem_singleton] at h; rw [h]; rfl
        · exfalso
          rcases hload with h | ⟨b, h⟩
          · rw [hpe] at h; cases h
          · rw [hr] at h; cases h
      · rw [if_neg hpe, if_neg hpe]
        rcases installAndSave_fetch_call x c.Args c.g c.save fu cu rl (x.createBunchfile w1).1
          (x.createBunchfile w1).2
          (t1 ++ tg ++ [Call.pathExists "Bunchfile" (x.pathExists "Bunchfile" w1)] ++
            [Call.createBunchfile (x.createBunchfile w1).1]) with ⟨post, h1, h2⟩
        refine ⟨_, post, h1, ?_, h2⟩
        intro ev hev
        rcases List.mem_append.1 hev with h | h
        · exact hpre ev h
        · rw [List.mem_singleton] at h; rw [h]; rfl
    · rw [hg1] at hg
      cases hg
  · rw [hs1] at hs
    cases hs

/-- Without arguments, once vendor setup and the reading of the manifest have
passed, `installCommand` calls `installPackagesFromBunchfile` with the manifest
read and the three flags as its last call, after preparing calls only, and ends
as that call does. -/
theorem installCommand_noargs_fetch_call {ω β : Type} (x : Ext ω β) (c : Context)
    (fu cu rl : Bool) (w : ω) (hargs : c.Args = [])
    (hs : (setupVendoring (β := β) x.MkdirAll w).1 = none) (b : β)
    (hread : (x.readBunchfile (setupVendoring (β := β) x.MkdirAll w).2.1).1 = ReadResult.ok b) :
    (∃ pre, (installCommand x c fu cu rl w).calls =
        pre ++ [Call.installPackagesFromBunchfile b fu cu rl
          (x.installPackagesFromBunchfile b fu cu rl
            (x.readBunchfile (setupVendoring (β := β) x.MkdirAll w).2.1).2).1] ∧
      ∀ ev ∈ pre, ev.prepares = true) ∧
    (installCommand x c fu cu rl w).world =
      (x.installPackagesFromBunchfile b fu cu rl
        (x.readBunchfile (setupVendoring (β := β) x.MkdirAll w).2.1).2).2 ∧
    ((x.installPackagesFromBunchfile b fu cu rl
        (x.readBunchfile (setupVendoring (β := β) x.MkdirAll w).2.1).2).1 = none →
      (installCommand x c fu cu rl w).outcome = Outcome.ok) ∧
    ((x.installPackagesFromBunchfile b fu cu rl
        (x.readBunchfile (setupVendoring (β := β) x.MkdirAll w).2.1).2).1 ≠ none →
      (installCommand x c fu cu rl w).outcome.failed = true) := by
  have hsv := setupVendoring_prepares (β := β) x.MkdirAll w
  unfold installCommand
  rcases hs1 : setupVendoring (β := β) x.MkdirAll w with ⟨_ | e, w1, t1⟩
  · rw [hs1] at hsv hread
    simp only at hread
    simp only [hargs, List.length_nil, if_true]
    rcases hr : x.readBunchfile w1 with ⟨b1 | e, w2⟩
    · rw [hr] at hread
      simp only at hread
      injection hread with hb
      subst hb
      simp only
      have hpre : ∀ ev ∈ t1 ++ [Call.readBunchfile (ReadResult.ok b1)], ev.prepares = true := by
        intro ev hev
        rcases List.mem_append.1 hev with h | h
        · exact hsv ev h
        · rw [List.mem_singleton] at h; rw [h]; rfl
      rcases hf : x.installPackagesFromBunchfile b1 fu cu rl w2 with ⟨_ | e, w3⟩
      · exact ⟨⟨_, rfl, hpre⟩, rfl, fun _ => rfl, fun h => absurd rfl h⟩
      · simp only
        cases hst : e.stack
        · exact ⟨⟨_, rfl, hpre⟩, rfl, fun h => (by cases h), fun _ => rfl⟩
        · exact ⟨⟨_, rfl, hpre⟩, rfl, fun h => (by cases h), fun _ => rfl⟩
    · rw [hr] at hread
      cases hread
  · rw [hs1] at hs
    cases hs

/-- C7. `installCommand` treats `forceUpdate`, `checkUpstream` and
`respectLocked` alike for every argument list and flag setting: the calls it
makes before the fetch are the same whatever the three values; a fetch call is
given exactly the three values passed in; the whole run (outcome, world left,
calls up to the flags recorded in the fetch call) is the run with any other
three values over helpers whose fetch functions are handed the original three,
so that the values reach nothing but the fetch helper; and the fetch helper is
called: without arguments, once vendor setup and the reading of the manifest
have passed, `installPackagesFromBunchfile` with the manifest and the three
values, as last call; with arguments, once vendor setup, the `GOPATH` check and
the loading of the manifest have passed, `installPackagesFromRepoStrings` with
the arguments, the `-g` flag and the three values. -/
theorem installCommand_flags_only_forwarded {ω β : Type} (x : Ext ω β) (c : Context)
    (fu cu rl fu1 cu1 rl1 : Bool) (w : ω) :
    ((installCommand x c fu cu rl w).calls.takeWhile (fun ev => !ev.fetchesOrRemoves) =
      (installCommand x c fu1 cu1 rl1 w).calls.takeWhile (fun ev => !ev.fetchesOrRemoves)) ∧
    (∀ ev ∈ (installCommand x c fu cu rl w).calls,
      ev.fetchFlags? = none ∨ ev.fetchFlags? = some (fu, cu, rl)) ∧
    (installCommand x c fu cu rl w).outcome =
      (installCommand (fixFlags x fu cu rl) c fu1 cu1 rl1 w).outcome ∧
    (installCommand x c fu cu rl w).world =
      (installCommand (fixFlags x fu cu rl) c fu1 cu1 rl1 w).world ∧
    (installCommand x c fu cu rl w).calls.map Call.eraseFlags =
      (installCommand (fixFlags x fu cu rl) c fu1 cu1 rl1 w).calls.map Call.eraseFlags ∧
    (c.Args = [] → (setupVendoring (β := β) x.MkdirAll w).1 = none →
      ∀ b, (x.readBunchfile (setupVendoring (β := β) x.MkdirAll w).2.1).1 = ReadResult.ok b →
        (∃ pre, (installCommand x c fu cu rl w).calls =
            pre ++ [Call.installPackagesFromBunchfile b fu cu rl
              (x.installPackagesFromBunchfile b fu cu rl
                (x.readBunchfile (setupVendoring (β := β) x.MkdirAll w).2.1).2).1] ∧
          ∀ ev ∈ pre, ev.prepares = true) ∧
        (installCommand x c fu cu rl w).world =
          (x.installPackagesFromBunchfile b fu cu rl
            (x.readBunchfile (setupVendoring (β := β) x.MkdirAll w).2.1).2).2 ∧
        ((x.installPackagesFromBunchfile b fu cu rl
            (x.readBunchfile (setupVendoring (β := β) x.MkdirAll w).2.1).2).1 = none →
          (installCommand x c fu cu rl w).outcome = Outcome.ok) ∧
        ((x.installPackagesFromBunchfile b fu cu rl
            (x.readBunchfile (setupVendoring (β := β) x.MkdirAll w).2.1).2).1 ≠ none →
          (installCommand x c fu cu rl w).outcome.failed = true)) ∧
    (c.Args ≠ [] → (setupVendoring (β := β) x.MkdirAll w).1 = none →
      (gopathMissing (β := β) x c.g (setupVendoring (β := β) x.MkdirAll w).2.1).1 = false →
      (x.pathExists "Bunchfile" (setupVendoring (β := β) x.MkdirAll w).2.1 = false ∨
        ∃ b, (x.readBunchfile (setupVendoring (β := β) x.MkdirAll w).2.1).1 = ReadResult.ok b) →
      ∃ pre post, (installCommand x c fu cu rl w).calls =
          pre ++ Call.installPackagesFromRepoStrings c.Args c.g fu cu rl
            (x.installPackagesFromRepoStrings c.Args c.g fu cu rl
              (if x.pathExists "Bunchfile" (setupVendoring (β := β) x.MkdirAll w).2.1 = true then
                (x.readBunchfile (setupVendoring (β := β) x.MkdirAll w).2.1).2
              else (x.createBunchfile (setupVendoring (β := β) x.MkdirAll w).2.1).2)).1 :: post ∧
        (∀ ev ∈ pre, ev.prepares = true) ∧ (∀ ev ∈ post, ev.fetchFlags? = none)) := by
  rcases installCommand_before_fetch x c w with ⟨pre, hpre⟩
  rcases installCommand_fixFlags x c fu cu rl fu1 cu1 rl1 w with ⟨h1, h2, h3, h4⟩
  exact ⟨by rw [hpre fu cu rl, hpre fu1 cu1 rl1], h4, h1, h2, h3,
    fun hargs hs b hread => installCommand_noargs_fetch_call x c fu cu rl w hargs hs b hread,
    fun hargs hs hg hload => installCommand_args_fetch_call x c fu cu rl w hargs hs hg hload⟩

/-- C7, on runs: `update` passes `forceUpdate = true` to
`installPackagesFromBunchfile` when it has no argument and to
`installPackagesFromRepoStrings` when it has one. -/
theorem installCommand_flags_only_forwarded_witness :
    (∃ pre, (installCommand sampleExt noArgs true false true projectFS).calls =
        pre ++ [Call.installPackagesFromBunchfile ["github.com/acme/foo"] true false true none] ∧
      ∀ ev ∈ pre, ev.prepares = true) ∧
    (∃ pre post, (installCommand sampleExt installFoo true false true emptyFS).calls =
        pre ++ Call.installPackagesFromRepoStrings ["github.com/acme/foo"] false true false true
          none :: post ∧
      (∀ ev ∈ pre, ev.prepares = true) ∧ (∀ ev ∈ post, ev.fetchFlags? = none)) :=
  ⟨((installCommand_flags_only_forwarded sampleExt noArgs true false true false false false
      projectFS).2.2.2.2.2.1 rfl (by decide) ["github.com/acme/foo"] (by decide)).1,
    (installCommand_flags_only_forwarded sampleExt installFoo true false true false false false
      emptyFS).2.2.2.2.2.2 (by decide) (by decide) (by decide) (Or.inl (by decide))⟩

/-- C9, at the failing inputs: a failure of `generateBunchfile` is reported as
`failed checking for outdated packages`, the message of the outdated check, and a
failure of `os.MkdirAll` in `shimCommand` is reported as `unable to create
~/.bunch`, without the text of the error returned. -/
theorem generateCommand_reports_outdated_check :
    (generateCommand generateFailsExt emptyFS).outcome =
      Outcome.fatal "failed checking for outdated packages: disk full" ∧
    Call.generateBunchfile (some ⟨"disk full", none⟩) ∈
      (generateCommand generateFailsExt emptyFS).calls ∧
    (shimCommand sampleExt noArgs shimBlockedFS).outcome =
      Outcome.fatal "unable to create ~/.bunch" ∧
    Call.MkdirAll ".bunch/shims" 0o755 (some ⟨"mkdir .bunch: not a directory", none⟩) ∈
      (shimCommand sampleExt noArgs shimBlockedFS).calls :=
  ⟨by decide, by decide, by decide, by decide⟩

/-- C10. When `setVendorEnv` succeeds: with a non-empty argument list
`execCommand` runs the program named by the first argument with exactly the
remaining arguments, in order, and ends as that run does; with the empty
argument list the index `c.Args()[0]` is out of range, and so is the slice
`c.Args()[1:]`, and `execCommand` panics without running anything. -/
theorem execCommand_runs_first_argument {ω β : Type} (x : Ext ω β) (c : Context) (w w1 : ω)
    (henv : x.setVendorEnv w = (none, w1)) :
    (∀ name rest, c.Args = name :: rest →
      (execCommand x c w).calls =
        [Call.setVendorEnv none, Call.Run name rest (x.Run name rest w1).1] ∧
      (execCommand x c w).world = (x.Run name rest w1).2 ∧
      (execCommand x c w).outcome =
        (match (x.Run name rest w1).1 with
          | none => Outcome.ok
          | some e =>
            Outcome.fatal ("running '" ++ " ".intercalate c.Args ++ "' failed: " ++ e.text))) ∧
    (c.Args = [] →
      c.Args[0]? = none ∧
      sliceFrom c.Args 1 = none ∧
      (execCommand x c w).outcome =
        Outcome.panic "runtime error: slice bounds out of range [1:0]" ∧
      (execCommand x c w).calls = [Call.setVendorEnv none]) := by
  unfold execCommand
  rw [henv]
  constructor
  · intro name rest hargs
    have hsl : sliceFrom (name :: rest) 1 = some rest := by
      simp [sliceFrom]
    simp only [hargs, hsl, List.getElem?_cons_zero]
    rcases hr : x.Run name rest w1 with ⟨_ | e, w2⟩
    · exact ⟨rfl, rfl, rfl⟩
    · exact ⟨rfl, rfl, rfl⟩
  · intro hargs
    have hsl : sliceFrom ([] : List String) 1 = none := by
      simp [sliceFrom]
    simp only [hargs, hsl, List.getElem?_nil]
    exact ⟨trivial, trivial, trivial, trivial⟩

/-- C10, on runs: `exec make test` runs `make` with the argument `test`; `exec`
without arguments panics. -/
theorem execCommand_runs_first_argument_witness :
    (execCommand sampleExt execMakeTest emptyFS).calls =
        [Call.setVendorEnv none, Call.Run "make" ["test"] none] ∧
    (execCommand sampleExt noArgs emptyFS).outcome =
      Outcome.panic "runtime error: slice bounds out of range [1:0]" :=
  ⟨((execCommand_runs_first_argument sampleExt execMakeTest emptyFS emptyFS rfl).1
      "make" ["test"] rfl).1,
    ((execCommand_runs_first_argument sampleExt noArgs emptyFS emptyFS rfl).2 rfl).2.2.1⟩

/-- C8, on runs: in an empty directory `setupVendoring` succeeds, creates
`.vendor/src` and can be repeated without change; where `.vendor` is a regular
file it fails at the first directory and attempts no other. -/
theorem setupVendoring_creates_and_is_idempotent_witness :
    ((setupVendoring (β := List String) FS.MkdirAll emptyFS).1 = none ∧
      ".vendor/src" ∈ (setupVendoring (β := List String) FS.MkdirAll emptyFS).2.1.dirs ∧
      (setupVendoring (β := List String) FS.MkdirAll
          (setupVendoring (β := List String) FS.MkdirAll emptyFS).2.1).2.1 =
        (setupVendoring (β := List String) FS.MkdirAll emptyFS).2.1) ∧
    ((setupVendoring (β := List String) FS.MkdirAll blockedFS).1 ≠ none ∧
      ∃ k e0, k < vendorDirs.length ∧
        (setupVendoring (β := List String) FS.MkdirAll blockedFS).1 = some (errorsTrace e0) ∧
        (errorsTrace e0).text = e0.text ∧
        (setupVendoring (β := List String) FS.MkdirAll blockedFS).2.2 =
          (vendorDirs.take k).map (fun d => Call.MkdirAll d 0o755 none) ++
            [Call.MkdirAll (vendorDirs.getD k "") 0o755 (some e0)]) :=
  ⟨⟨by decide,
      ((setupVendoring_creates_and_is_idempotent (β := List String) emptyFS).1 (by decide)).2.2.1,
      ((setupVendoring_creates_and_is_idempotent (β := List String) emptyFS).1
        (by decide)).2.2.2.2.2⟩,
    by decide,
    (setupVendoring_creates_and_is_idempotent (β := List String) blockedFS).2 (by decide)⟩

end Bunch
